import Mathlib

/-
  Verification development for a 3x3 tic-tac-toe game
  (React frontend, file src/frontend_react_js/src/App.js).

  The board is a JS array of 9 entries, each null, "X" or "O".
  We model a cell as `Option Player` (none = null/undefined) and a board
  as `List Cell`.  JS array reads out of range yield undefined, modelled
  by `List.getD _ none`; JS array writes out of range extend the array,
  padding with holes, modelled by `jsSet`.
-/

set_option maxRecDepth 100000

inductive Player where
  | X : Player
  | O : Player
deriving DecidableEq

/-- `aiPlayer === "X" ? "O" : "X"` (App.js line 108). -/
def Player.other : Player → Player
  | .X => .O
  | .O => .X

abbrev Cell := Option Player

abbrev Board := List Cell

/-- `Array(9).fill(null)` (App.js line 261). -/
def emptyBoard : Board := List.replicate 9 none

/-- JS array assignment `a[i] = v`: in-range writes replace the entry,
out-of-range writes extend the array, padding with holes (undefined,
which reads back as empty). -/
def jsSet (l : Board) (i : Nat) (v : Cell) : Board :=
  if i < l.length then l.set i v
  else l ++ List.replicate (i - l.length) none ++ [v]

/-- The 8 fixed win lines of App.js lines 75-84: rows, columns, diagonals. -/
def winningLines : List (Nat × Nat × Nat) :=
  [(0,1,2),(3,4,5),(6,7,8),(0,3,6),(1,4,7),(2,5,8),(0,4,8),(2,4,6)]

/-- The `for (const line of lines)` loop of `calculateWinner`
(App.js lines 85-94): return the first line whose three cells are
non-empty and equal. -/
def scanLines (squares : Board) : List (Nat × Nat × Nat) → Option Player × Option (Nat × Nat × Nat)
  | [] => (none, none)
  | (a, b, c) :: rest =>
    match squares.getD a none with
    | some p =>
      if squares.getD b none == some p && squares.getD c none == some p then
        (some p, some (a, b, c))
      else scanLines squares rest
    | none => scanLines squares rest

/-- `calculateWinner(squares)` (App.js lines 73-96). -/
def calculateWinner (squares : Board) : Option Player × Option (Nat × Nat × Nat) :=
  scanLines squares winningLines

/-- `isDraw(squares)` (App.js lines 98-100):
`squares.every((v) => v) && !calculateWinner(squares)[0]`. -/
def isDraw (squares : Board) : Bool :=
  squares.all (fun v => v.isSome) && (calculateWinner squares).1.isNone

/-
  JS numbers as they occur in `computeAIMove`: integers together with
  `-Infinity` and `Infinity` (used as initial values for max/min folds).
-/

inductive JNum where
  | ninf : JNum
  | fin : Int → JNum
  | pinf : JNum
deriving DecidableEq

/-- `Math.max` on the numbers occurring in the search. -/
def jmax : JNum → JNum → JNum
  | .ninf, b => b
  | .pinf, _ => .pinf
  | .fin a, .ninf => .fin a
  | .fin _, .pinf => .pinf
  | .fin a, .fin b => .fin (if a < b then b else a)

/-- `Math.min` on the numbers occurring in the search. -/
def jmin : JNum → JNum → JNum
  | .pinf, b => b
  | .ninf, _ => .ninf
  | .fin a, .pinf => .fin a
  | .fin _, .ninf => .ninf
  | .fin a, .fin b => .fin (if a < b then a else b)

/-- Strict `>` on JS numbers (`score > bestScore`, App.js line 135). -/
def jgtb : JNum → JNum → Bool
  | .ninf, _ => false
  | .pinf, .pinf => false
  | .pinf, _ => true
  | .fin _, .ninf => true
  | .fin _, .pinf => false
  | .fin a, .fin b => decide (b < a)

/-- Non-strict `≤` on JS numbers. -/
def jleb : JNum → JNum → Bool
  | .ninf, _ => true
  | .pinf, .pinf => true
  | .pinf, _ => false
  | .fin _, .pinf => true
  | .fin _, .ninf => false
  | .fin a, .fin b => decide (a ≤ b)

/-- The index sequence of the JS loops `for (let i = 0; i < 9; i++)`. -/
def idx9 : List Nat := [0, 1, 2, 3, 4, 5, 6, 7, 8]

/-
  The recursive `minimax(board, depth, isMax)` of App.js lines 110-126.
  The JS recursion terminates because each recursive call fills one more
  empty cell; we make this explicit with a fuel argument that at every
  actual call equals the number of empty cells of the board (see
  `minimax` below), so the fuel-exhausted branch is never taken on real
  boards.  The JS mutate-recurse-undo pair `board[i] = sym; ...;
  board[i] = null` is modelled by recursing on the functionally updated
  board `jsSet board i (some sym)`.
-/
def minimaxStep (ai : Player) (next : Board → Nat → Bool → JNum)
    (board : Board) (depth : Nat) (isMax : Bool) : JNum :=
  match (calculateWinner board).1 with
  | some w => if w = ai then .fin (10 - (depth : Int)) else .fin ((depth : Int) - 10)
  | none =>
    if board.all (fun v => v.isSome) then .fin 0
    else
      idx9.foldl
        (fun best i =>
          if (board.getD i none).isNone then
            let score := next
              (jsSet board i (some (if isMax then ai else ai.other))) (depth + 1) (!isMax)
            if isMax then jmax best score else jmin best score
          else best)
        (if isMax then JNum.ninf else JNum.pinf)

def minimaxF (ai : Player) : Nat → Board → Nat → Bool → JNum
  | 0 => minimaxStep ai (fun _ _ _ => .fin 0)
  | fuel + 1 => minimaxStep ai (minimaxF ai fuel)

/-- `minimax(board, depth, isMax)`: the fuel is the number of empty
cells, which strictly decreases at each recursive call. -/
def minimax (ai : Player) (board : Board) (depth : Nat) (isMax : Bool) : JNum :=
  minimaxF ai (board.countP (fun c => c.isNone)) board depth isMax

/-- `computeAIMove(squares, aiPlayer)` (App.js lines 106-146): try every
empty cell in ascending order, score it with minimax (opponent to move
next), keep the first strictly best one; fall back to
`findIndex(v => !v)` when no move was selected. -/
def computeAIMove (squares : Board) (aiPlayer : Player) : Int :=
  let r := idx9.foldl
    (fun st i =>
      if (squares.getD i none).isNone then
        let score := minimax aiPlayer (jsSet squares i (some aiPlayer)) 0 false
        if jgtb score st.1 then (score, (i : Int)) else st
      else st)
    (JNum.ninf, (-1 : Int))
  if r.2 = -1 then
    match squares.findIdx? (fun v => v.isNone) with
    | some j => (j : Int)
    | none => -1
  else r.2

/-
  The Game Controller: the state held by the `App` component
  (App.js lines 251-398) and its transitions.
-/

inductive Mode where
  | pvp : Mode
  | ai : Mode
deriving DecidableEq

inductive Status where
  | ongoing : Status
  | win : Status
  | draw : Status
deriving DecidableEq

/-- The score tally `{ X, O, D }` (App.js line 273). -/
structure Score where
  X : Nat
  O : Nat
  D : Nat
deriving DecidableEq

/-- The rendering-relevant state of the `App` component: mode, squares,
xIsNext, status, score. -/
structure AppState where
  mode : Mode
  squares : Board
  xIsNext : Bool
  status : Status
  score : Score
deriving DecidableEq

/-- The component's initial state (App.js lines 258-274); the score is
whatever the persistence adapter loaded. -/
def initialState (s0 : Score) : AppState :=
  { mode := .pvp, squares := List.replicate 9 none, xIsNext := true,
    status := .ongoing, score := s0 }

/-- `handleSquareClick(i, isAI)` (App.js lines 328-336).  The guards are
exactly the JS ones: `squares[i] || winner || status === "draw"` and
`mode === "ai" && !xIsNext && !isAI`. -/
def handleSquareClick (s : AppState) (i : Nat) (isAI : Bool) : AppState :=
  if (s.squares.getD i none).isSome || ((calculateWinner s.squares).1).isSome
      || s.status == .draw then s
  else if s.mode == .ai && !s.xIsNext && !isAI then s
  else { s with squares := jsSet s.squares i (some (if s.xIsNext then .X else .O)),
                xIsNext := !s.xIsNext }

/-- `{...prev, [winner]: (prev[winner] || 0) + 1}` (App.js lines 292-295). -/
def bumpWinner (w : Player) (sc : Score) : Score :=
  match w with
  | .X => { sc with X := sc.X + 1 }
  | .O => { sc with O := sc.O + 1 }

/-- The game-over effect (App.js lines 289-305): derive the status from
the board and bump the matching score counter. -/
def gameOverEffect (s : AppState) : AppState :=
  match (calculateWinner s.squares).1 with
  | some w => { s with status := .win, score := bumpWinner w s.score }
  | none =>
    if isDraw s.squares then
      { s with status := .draw, score := { s.score with D := s.score.D + 1 } }
    else { s with status := .ongoing }

/-- One observable click transition: the click handler runs, and the
game-over effect re-runs precisely when its dependency (the squares
array, from which the winner is derived) changed. -/
def clickStep (s : AppState) (i : Nat) (isAI : Bool) : AppState :=
  let s1 := handleSquareClick s i isAI
  if s1.squares == s.squares then s1 else gameOverEffect s1

/-- `handleRestart()` (App.js lines 339-343). -/
def restartState (s : AppState) : AppState :=
  { s with squares := List.replicate 9 none, xIsNext := true }

/-- Restart as observed after the effect re-runs (if the squares changed). -/
def restartStep (s : AppState) : AppState :=
  let s1 := restartState s
  if s1.squares == s.squares then s1 else gameOverEffect s1

/-- `handleReset()` (App.js lines 346-348). -/
def resetStep (s : AppState) : AppState :=
  { s with score := { X := 0, O := 0, D := 0 } }

/-- `handleModeChange(val)` (App.js lines 351-354): set the mode, then
restart. -/
def modeChangeStep (s : AppState) (m : Mode) : AppState :=
  restartStep { s with mode := m }

/-- The status the game-over effect derives from a board. -/
def statusOf (b : Board) : Status :=
  match (calculateWinner b).1 with
  | some _ => .win
  | none => if isDraw b then .draw else .ongoing

/-- Count of a player's symbols on the board. -/
def countOf (p : Player) (b : Board) : Nat :=
  b.countP (fun c => c == some p)

/-- The states reachable through the public operations: initial load,
user clicks on the 3x3 grid, the engine-driven computer move
(App.js lines 308-324: only in ai mode, on O's turn, on a live board),
restart, score reset, and mode change. -/
inductive Reaches : AppState → Prop where
  | init (s0 : Score) : Reaches (initialState s0)
  | user (s : AppState) (i : Nat) (hi : i < 9) (h : Reaches s) :
      Reaches (clickStep s i false)
  | aiMove (s : AppState) (m : Nat) (h : Reaches s)
      (hmode : s.mode = .ai) (hw : (calculateWinner s.squares).1 = none)
      (hd : isDraw s.squares = false) (hx : s.xIsNext = false)
      (hm : computeAIMove s.squares .O = Int.ofNat m) :
      Reaches (clickStep s m true)
  | restart (s : AppState) (h : Reaches s) : Reaches (restartStep s)
  | reset (s : AppState) (h : Reaches s) : Reaches (resetStep s)
  | mode (s : AppState) (m : Mode) (h : Reaches s) : Reaches (modeChangeStep s m)

/-
  Playouts of the Search Engine, for the optimality claims: the engine
  (as `h`) against an arbitrary opponent strategy, and the engine
  against itself.
-/

/-- The indices of the empty cells, ascending (the legal moves). -/
def emptiesList (b : Board) : List Nat :=
  idx9.filter (fun i => (b.getD i none).isNone)

/-- A game where the engine plays the symbol `h` and an arbitrary
strategy chooses the other side's moves; X moves first, so `hTurn`
starts as `true` iff `h = X`.  The game stops on a terminal board, on an
illegal strategy move, or when the fuel (one unit per ply) runs out. -/
def playVs (h : Player) (strat : Board → Nat) : Nat → Board → Bool → Board
  | 0, b, _ => b
  | fuel + 1, b, hTurn =>
    if ((calculateWinner b).1).isSome || isDraw b then b
    else if hTurn then
      playVs h strat fuel (jsSet b (computeAIMove b h).toNat (some h)) false
    else
      let i := strat b
      if i < 9 && (b.getD i none).isNone then
        playVs h strat fuel (jsSet b i (some h.other)) true
      else b

/-- Both sides chosen by the engine, alternating symbols, `p` to move. -/
def selfPlay : Nat → Board → Player → Board
  | 0, b, _ => b
  | fuel + 1, b, p =>
    if ((calculateWinner b).1).isSome || isDraw b then b
    else selfPlay fuel (jsSet b (computeAIMove b p).toNat (some p)) p.other

/-
  Strategy certificates: a finite tree recording, from a given position,
  one move for the certificate holder `h` at each of the holder's turns
  and one branch per legal opponent reply at the opponent's turns.  The
  checker `chkStrat` verifies, by evaluation alone, that following the
  tree the opponent never wins; its soundness theorem converts that into
  a lower bound on the minimax value.
-/

inductive STree where
  | leaf : STree
  | entry (i : Nat) (sub rest : STree) : STree
  | move (j : Nat) (after : STree) : STree

/-- The opponent moves listed along an entry chain. -/
def keysOf : STree → List Nat
  | .leaf => []
  | .entry i _ rest => i :: keysOf rest
  | .move _ _ => []

/-- Every empty cell of `b` is listed in the chain `t`. -/
def coverage (b : Board) (t : STree) : Bool :=
  idx9.all (fun k => !(b.getD k none).isNone || decide (k ∈ keysOf t))

/-- Outcome of the terminal checks at a position: `some r` when the
board is terminal (good iff the winner, if any, is the holder), `none`
when play goes on. -/
def chkPre (h : Player) (b : Board) : Option Bool :=
  match (calculateWinner b).1 with
  | some w => some (w == h)
  | none => if b.all (fun v => v.isSome) then some true else none

/-- Certificate checker.  `hm = true`: it is the holder's turn and `t`
must name the holder's move; `hm = false`: it is the opponent's turn and
`t` is a chain of entries, one per opponent reply.  On a terminal board
the tree is ignored: the position is good iff the winner (if any) is the
holder. -/
def chkStrat (h : Player) : STree → Board → Bool → Bool
  | .leaf, b, hm => (chkPre h b).getD (!hm)
  | .entry i sub rest, b, hm =>
    (chkPre h b).getD
      (if hm then false
       else
         decide (i < 9) && (b.getD i none).isNone
           && chkStrat h sub (jsSet b i (some h.other)) true
           && chkStrat h rest b false)
  | .move j after, b, hm =>
    (chkPre h b).getD
      (if hm then
        decide (j < 9) && (b.getD j none).isNone
          && (((calculateWinner (jsSet b j (some h))).1).isSome
              || (jsSet b j (some h)).all (fun v => v.isSome)
              || coverage (jsSet b j (some h)) after)
          && chkStrat h after (jsSet b j (some h)) false
       else false)

/-- Certificate: the engine's own replies for holder O answering every
opponent-X line of play from the empty board. -/
def certO : STree :=
  (.entry 0 (.move 4 (.entry 1 (.move 2 (.entry 3 (.move 6 .leaf) (.entry 5 (.move 6 .leaf) (.entry 6 (.move 3 (.entry 5 (.move 7 (.entry 8 .leaf .leaf)) (.entry 7 (.move 5 .leaf) (.entry 8 (.move 5 .leaf) .leaf)))) (.entry 7 (.move 6 .leaf) (.entry 8 (.move 6 .leaf) .leaf)))))) (.entry 2 (.move 1 (.entry 3 (.move 7 .leaf) (.entry 5 (.move 7 .leaf) (.entry 6 (.move 7 .leaf) (.entry 7 (.move 3 (.entry 5 (.move 8 (.entry 6 .leaf .leaf)) (.entry 6 (.move 5 .leaf) (.entry 8 (.move 5 .leaf) .leaf)))) (.entry 8 (.move 7 .leaf) .leaf)))))) (.entry 3 (.move 6 (.entry 1 (.move 2 .leaf) (.entry 2 (.move 1 (.entry 5 (.move 7 .leaf) (.entry 7 (.move 5 (.entry 8 .leaf .leaf)) (.entry 8 (.move 7 .leaf) .leaf)))) (.entry 5 (.move 2 .leaf) (.entry 7 (.move 2 .leaf) (.entry 8 (.move 2 .leaf) .leaf)))))) (.entry 5 (.move 1 (.entry 2 (.move 7 .leaf) (.entry 3 (.move 7 .leaf) (.entry 6 (.move 7 .leaf) (.entry 7 (.move 6 (.entry 2 (.move 8 (.entry 3 .leaf .leaf)) (.entry 3 (.move 2 .leaf) (.entry 8 (.move 2 .leaf) .leaf)))) (.entry 8 (.move 7 .leaf) .leaf)))))) (.entry 6 (.move 3 (.entry 1 (.move 5 .leaf) (.entry 2 (.move 5 .leaf) (.entry 5 (.move 1 (.entry 2 (.move 7 .leaf) (.entry 7 (.move 8 (.entry 2 .leaf .leaf)) (.entry 8 (.move 7 .leaf) .leaf)))) (.entry 7 (.move 5 .leaf) (.entry 8 (.move 5 .leaf) .leaf)))))) (.entry 7 (.move 3 (.entry 1 (.move 5 .leaf) (.entry 2 (.move 5 .leaf) (.entry 5 (.move 2 (.entry 1 (.move 6 .leaf) (.entry 6 (.move 8 (.entry 1 .leaf .leaf)) (.entry 8 (.move 6 .leaf) .leaf)))) (.entry 6 (.move 5 .leaf) (.entry 8 (.move 5 .leaf) .leaf)))))) (.entry 8 (.move 1 (.entry 2 (.move 7 .leaf) (.entry 3 (.move 7 .leaf) (.entry 5 (.move 7 .leaf) (.entry 6 (.move 7 .leaf) (.entry 7 (.move 6 (.entry 2 (.move 5 (.entry 3 .leaf .leaf)) (.entry 3 (.move 2 .leaf) (.entry 5 (.move 2 .leaf) .leaf)))) .leaf)))))) .leaf)))))))) (.entry 1 (.move 0 (.entry 2 (.move 3 (.entry 4 (.move 6 .leaf) (.entry 5 (.move 6 .leaf) (.entry 6 (.move 4 (.entry 5 (.move 8 .leaf) (.entry 7 (.move 5 .leaf) (.entry 8 (.move 5 .leaf) .leaf)))) (.entry 7 (.move 6 .leaf) (.entry 8 (.move 6 .leaf) .leaf)))))) (.entry 3 (.move 4 (.entry 2 (.move 8 .leaf) (.entry 5 (.move 8 .leaf) (.entry 6 (.move 8 .leaf) (.entry 7 (.move 8 .leaf) (.entry 8 (.move 2 (.entry 5 (.move 6 .leaf) (.entry 6 (.move 7 (.entry 5 .leaf .leaf)) (.entry 7 (.move 6 .leaf) .leaf)))) .leaf)))))) (.entry 4 (.move 7 (.entry 2 (.move 6 (.entry 3 (.move 8 .leaf) (.entry 5 (.move 3 .leaf) (.entry 8 (.move 3 .leaf) .leaf)))) (.entry 3 (.move 5 (.entry 2 (.move 6 (.entry 8 .leaf .leaf)) (.entry 6 (.move 2 (.entry 8 .leaf .leaf)) (.entry 8 (.move 2 (.entry 6 .leaf .leaf)) .leaf)))) (.entry 5 (.move 3 (.entry 2 (.move 6 .leaf) (.entry 6 (.move 2 (.entry 8 .leaf .leaf)) (.entry 8 (.move 6 .leaf) .leaf)))) (.entry 6 (.move 2 (.entry 3 (.move 5 (.entry 8 .leaf .leaf)) (.entry 5 (.move 3 (.entry 8 .leaf .leaf)) (.entry 8 (.move 3 (.entry 5 .leaf .leaf)) .leaf)))) (.entry 8 (.move 2 (.entry 3 (.move 5 (.entry 6 .leaf .leaf)) (.entry 5 (.move 3 (.entry 6 .leaf .leaf)) (.entry 6 (.move 3 (.entry 5 .leaf .leaf)) .leaf)))) .leaf)))))) (.entry 5 (.move 6 (.entry 2 (.move 3 .leaf) (.entry 3 (.move 4 (.entry 2 (.move 8 .leaf) (.entry 7 (.move 2 .leaf) (.entry 8 (.move 2 .leaf) .leaf)))) (.entry 4 (.move 3 .leaf) (.entry 7 (.move 3 .leaf) (.entry 8 (.move 3 .leaf) .leaf)))))) (.entry 6 (.move 4 (.entry 2 (.move 8 .leaf) (.entry 3 (.move 8 .leaf) (.entry 5 (.move 8 .leaf) (.entry 7 (.move 8 .leaf) (.entry 8 (.move 7 (.entry 2 (.move 5 (.entry 3 .leaf .leaf)) (.entry 3 (.move 2 (.entry 5 .leaf .leaf)) (.entry 5 (.move 2 (.entry 3 .leaf .leaf)) .leaf)))) .leaf)))))) (.entry 7 (.move 4 (.entry 2 (.move 8 .leaf) (.entry 3 (.move 8 .leaf) (.entry 5 (.move 8 .leaf) (.entry 6 (.move 8 .leaf) (.entry 8 (.move 6 (.entry 2 (.move 3 .leaf) (.entry 3 (.move 2 .leaf) (.entry 5 (.move 2 .leaf) .leaf)))) .leaf)))))) (.entry 8 (.move 4 (.entry 2 (.move 5 (.entry 3 (.move 6 (.entry 7 .leaf .leaf)) (.entry 6 (.move 3 .leaf) (.entry 7 (.move 3 .leaf) .leaf)))) (.entry 3 (.move 2 (.entry 5 (.move 6 .leaf) (.entry 6 (.move 7 (.entry 5 .leaf .leaf)) (.entry 7 (.move 6 .leaf) .leaf)))) (.entry 5 (.move 2 (.entry 3 (.move 6 .leaf) (.entry 6 (.move 7 (.entry 3 .leaf .leaf)) (.entry 7 (.move 6 .leaf) .leaf)))) (.entry 6 (.move 7 (.entry 2 (.move 5 (.entry 3 .leaf .leaf)) (.entry 3 (.move 2 (.entry 5 .leaf .leaf)) (.entry 5 (.move 2 (.entry 3 .leaf .leaf)) .leaf)))) (.entry 7 (.move 6 (.entry 2 (.move 3 .leaf) (.entry 3 (.move 2 .leaf) (.entry 5 (.move 2 .leaf) .leaf)))) .leaf)))))) .leaf)))))))) (.entry 2 (.move 4 (.entry 0 (.move 1 (.entry 3 (.move 7 .leaf) (.entry 5 (.move 7 .leaf) (.entry 6 (.move 7 .leaf) (.entry 7 (.move 3 (.entry 5 (.move 8 (.entry 6 .leaf .leaf)) (.entry 6 (.move 5 .leaf) (.entry 8 (.move 5 .leaf) .leaf)))) (.entry 8 (.move 7 .leaf) .leaf)))))) (.entry 1 (.move 0 (.entry 3 (.move 8 .leaf) (.entry 5 (.move 8 .leaf) (.entry 6 (.move 8 .leaf) (.entry 7 (.move 8 .leaf) (.entry 8 (.move 5 (.entry 3 (.move 6 (.entry 7 .leaf .leaf)) (.entry 6 (.move 3 .leaf) (.entry 7 (.move 3 .leaf) .leaf)))) .leaf)))))) (.entry 3 (.move 0 (.entry 1 (.move 8 .leaf) (.entry 5 (.move 8 .leaf) (.entry 6 (.move 8 .leaf) (.entry 7 (.move 8 .leaf) (.entry 8 (.move 5 (.entry 1 (.move 6 (.entry 7 .leaf .leaf)) (.entry 6 (.move 7 (.entry 1 .leaf .leaf)) (.entry 7 (.move 6 (.entry 1 .leaf .leaf)) .leaf)))) .leaf)))))) (.entry 5 (.move 8 (.entry 0 (.move 1 (.entry 3 (.move 7 .leaf) (.entry 6 (.move 7 .leaf) (.entry 7 (.move 3 (.entry 6 .leaf .leaf)) .leaf)))) (.entry 1 (.move 0 .leaf) (.entry 3 (.move 0 .leaf) (.entry 6 (.move 0 .leaf) (.entry 7 (.move 0 .leaf) .leaf)))))) (.entry 6 (.move 1 (.entry 0 (.move 7 .leaf) (.entry 3 (.move 7 .leaf) (.entry 5 (.move 7 .leaf) (.entry 7 (.move 8 (.entry 0 (.move 3 (.entry 5 .leaf .leaf)) (.entry 3 (.move 0 .leaf) (.entry 5 (.move 0 .leaf) .leaf)))) (.entry 8 (.move 7 .leaf) .leaf)))))) (.entry 7 (.move 3 (.entry 0 (.move 5 .leaf) (.entry 1 (.move 5 .leaf) (.entry 5 (.move 8 (.entry 0 (.move 1 (.entry 6 .leaf .leaf)) (.entry 1 (.move 0 .leaf) (.entry 6 (.move 0 .leaf) .leaf)))) (.entry 6 (.move 5 .leaf) (.entry 8 (.move 5 .leaf) .leaf)))))) (.entry 8 (.move 5 (.entry 0 (.move 3 .leaf) (.entry 1 (.move 3 .leaf) (.entry 3 (.move 0 (.entry 1 (.move 6 (.entry 7 .leaf .leaf)) (.entry 6 (.move 7 (.entry 1 .leaf .leaf)) (.entry 7 (.move 6 (.entry 1 .leaf .leaf)) .leaf)))) (.entry 6 (.move 3 .leaf) (.entry 7 (.move 3 .leaf) .leaf)))))) .leaf)))))))) (.entry 3 (.move 0 (.entry 1 (.move 4 (.entry 2 (.move 8 .leaf) (.entry 5 (.move 8 .leaf) (.entry 6 (.move 8 .leaf) (.entry 7 (.move 8 .leaf) (.entry 8 (.move 2 (.entry 5 (.move 6 .leaf) (.entry 6 (.move 7 (.entry 5 .leaf .leaf)) (.entry 7 (.move 6 .leaf) .leaf)))) .leaf)))))) (.entry 2 (.move 4 (.entry 1 (.move 8 .leaf) (.entry 5 (.move 8 .leaf) (.entry 6 (.move 8 .leaf) (.entry 7 (.move 8 .leaf) (.entry 8 (.move 5 (.entry 1 (.move 6 (.entry 7 .leaf .leaf)) (.entry 6 (.move 7 (.entry 1 .leaf .leaf)) (.entry 7 (.move 6 (.entry 1 .leaf .leaf)) .leaf)))) .leaf)))))) (.entry 4 (.move 5 (.entry 1 (.move 7 (.entry 2 (.move 6 (.entry 8 .leaf .leaf)) (.entry 6 (.move 2 (.entry 8 .leaf .leaf)) (.entry 8 (.move 2 (.entry 6 .leaf .leaf)) .leaf)))) (.entry 2 (.move 6 (.entry 1 (.move 7 (.entry 8 .leaf .leaf)) (.entry 7 (.move 1 (.entry 8 .leaf .leaf)) (.entry 8 (.move 1 (.entry 7 .leaf .leaf)) .leaf)))) (.entry 6 (.move 2 (.entry 1 (.move 8 .leaf) (.entry 7 (.move 1 .leaf) (.entry 8 (.move 1 .leaf) .leaf)))) (.entry 7 (.move 1 (.entry 2 (.move 6 (.entry 8 .leaf .leaf)) (.entry 6 (.move 2 .leaf) (.entry 8 (.move 2 .leaf) .leaf)))) (.entry 8 (.move 1 (.entry 2 (.move 6 (.entry 7 .leaf .leaf)) (.entry 6 (.move 2 .leaf) (.entry 7 (.move 2 .leaf) .leaf)))) .leaf)))))) (.entry 5 (.move 4 (.entry 1 (.move 8 .leaf) (.entry 2 (.move 8 .leaf) (.entry 6 (.move 8 .leaf) (.entry 7 (.move 8 .leaf) (.entry 8 (.move 2 (.entry 1 (.move 6 .leaf) (.entry 6 (.move 1 .leaf) (.entry 7 (.move 1 .leaf) .leaf)))) .leaf)))))) (.entry 6 (.move 1 (.entry 2 (.move 4 (.entry 5 (.move 7 .leaf) (.entry 7 (.move 8 .leaf) (.entry 8 (.move 7 .leaf) .leaf)))) (.entry 4 (.move 2 .leaf) (.entry 5 (.move 2 .leaf) (.entry 7 (.move 2 .leaf) (.entry 8 (.move 2 .leaf) .leaf)))))) (.entry 7 (.move 2 (.entry 1 (.move 4 (.entry 5 (.move 6 .leaf) (.entry 6 (.move 8 .leaf) (.entry 8 (.move 6 .leaf) .leaf)))) (.entry 4 (.move 1 .leaf) (.entry 5 (.move 1 .leaf) (.entry 6 (.move 1 .leaf) (.entry 8 (.move 1 .leaf) .leaf)))))) (.entry 8 (.move 2 (.entry 1 (.move 4 (.entry 5 (.move 6 .leaf) (.entry 6 (.move 7 (.entry 5 .leaf .leaf)) (.entry 7 (.move 6 .leaf) .leaf)))) (.entry 4 (.move 1 .leaf) (.entry 5 (.move 1 .leaf) (.entry 6 (.move 1 .leaf) (.entry 7 (.move 1 .leaf) .leaf)))))) .leaf)))))))) (.entry 4 (.move 0 (.entry 1 (.move 7 (.entry 2 (.move 6 (.entry 3 (.move 8 .leaf) (.entry 5 (.move 3 .leaf) (.entry 8 (.move 3 .leaf) .leaf)))) (.entry 3 (.move 5 (.entry 2 (.move 6 (.entry 8 .leaf .leaf)) (.entry 6 (.move 2 (.entry 8 .leaf .leaf)) (.entry 8 (.move 2 (.entry 6 .leaf .leaf)) .leaf)))) (.entry 5 (.move 3 (.entry 2 (.move 6 .leaf) (.entry 6 (.move 2 (.entry 8 .leaf .leaf)) (.entry 8 (.move 6 .leaf) .leaf)))) (.entry 6 (.move 2 (.entry 3 (.move 5 (.entry 8 .leaf .leaf)) (.entry 5 (.move 3 (.entry 8 .leaf .leaf)) (.entry 8 (.move 3 (.entry 5 .leaf .leaf)) .leaf)))) (.entry 8 (.move 2 (.entry 3 (.move 5 (.entry 6 .leaf .leaf)) (.entry 5 (.move 3 (.entry 6 .leaf .leaf)) (.entry 6 (.move 3 (.entry 5 .leaf .leaf)) .leaf)))) .leaf)))))) (.entry 2 (.move 6 (.entry 1 (.move 3 .leaf) (.entry 3 (.move 5 (.entry 1 (.move 7 (.entry 8 .leaf .leaf)) (.entry 7 (.move 1 (.entry 8 .leaf .leaf)) (.entry 8 (.move 1 (.entry 7 .leaf .leaf)) .leaf)))) (.entry 5 (.move 3 .leaf) (.entry 7 (.move 3 .leaf) (.entry 8 (.move 3 .leaf) .leaf)))))) (.entry 3 (.move 5 (.entry 1 (.move 7 (.entry 2 (.move 6 (.entry 8 .leaf .leaf)) (.entry 6 (.move 2 (.entry 8 .leaf .leaf)) (.entry 8 (.move 2 (.entry 6 .leaf .leaf)) .leaf)))) (.entry 2 (.move 6 (.entry 1 (.move 7 (.entry 8 .leaf .leaf)) (.entry 7 (.move 1 (.entry 8 .leaf .leaf)) (.entry 8 (.move 1 (.entry 7 .leaf .leaf)) .leaf)))) (.entry 6 (.move 2 (.entry 1 (.move 8 .leaf) (.entry 7 (.move 1 .leaf) (.entry 8 (.move 1 .leaf) .leaf)))) (.entry 7 (.move 1 (.entry 2 (.move 6 (.entry 8 .leaf .leaf)) (.entry 6 (.move 2 .leaf) (.entry 8 (.move 2 .leaf) .leaf)))) (.entry 8 (.move 1 (.entry 2 (.move 6 (.entry 7 .leaf .leaf)) (.entry 6 (.move 2 .leaf) (.entry 7 (.move 2 .leaf) .leaf)))) .leaf)))))) (.entry 5 (.move 3 (.entry 1 (.move 6 .leaf) (.entry 2 (.move 6 .leaf) (.entry 6 (.move 2 (.entry 1 (.move 7 (.entry 8 .leaf .leaf)) (.entry 7 (.move 1 .leaf) (.entry 8 (.move 1 .leaf) .leaf)))) (.entry 7 (.move 6 .leaf) (.entry 8 (.move 6 .leaf) .leaf)))))) (.entry 6 (.move 2 (.entry 1 (.move 7 (.entry 3 (.move 5 (.entry 8 .leaf .leaf)) (.entry 5 (.move 3 (.entry 8 .leaf .leaf)) (.entry 8 (.move 3 (.entry 5 .leaf .leaf)) .leaf)))) (.entry 3 (.move 1 .leaf) (.entry 5 (.move 1 .leaf) (.entry 7 (.move 1 .leaf) (.entry 8 (.move 1 .leaf) .leaf)))))) (.entry 7 (.move 1 (.entry 2 (.move 6 (.entry 3 (.move 5 (.entry 8 .leaf .leaf)) (.entry 5 (.move 3 .leaf) (.entry 8 (.move 3 .leaf) .leaf)))) (.entry 3 (.move 2 .leaf) (.entry 5 (.move 2 .leaf) (.entry 6 (.move 2 .leaf) (.entry 8 (.move 2 .leaf) .leaf)))))) (.entry 8 (.move 2 (.entry 1 (.move 7 (.entry 3 (.move 5 (.entry 6 .leaf .leaf)) (.entry 5 (.move 3 (.entry 6 .leaf .leaf)) (.entry 6 (.move 3 (.entry 5 .leaf .leaf)) .leaf)))) (.entry 3 (.move 1 .leaf) (.entry 5 (.move 1 .leaf) (.entry 6 (.move 1 .leaf) (.entry 7 (.move 1 .leaf) .leaf)))))) .leaf)))))))) (.entry 5 (.move 2 (.entry 0 (.move 3 (.entry 1 (.move 4 (.entry 6 (.move 7 (.entry 8 .leaf .leaf)) (.entry 7 (.move 6 .leaf) (.entry 8 (.move 6 .leaf) .leaf)))) (.entry 4 (.move 8 (.entry 1 (.move 7 (.entry 6 .leaf .leaf)) (.entry 6 (.move 1 (.entry 7 .leaf .leaf)) (.entry 7 (.move 1 (.entry 6 .leaf .leaf)) .leaf)))) (.entry 6 (.move 4 (.entry 1 (.move 7 (.entry 8 .leaf .leaf)) (.entry 7 (.move 8 (.entry 1 .leaf .leaf)) (.entry 8 (.move 7 (.entry 1 .leaf .leaf)) .leaf)))) (.entry 7 (.move 4 (.entry 1 (.move 6 .leaf) (.entry 6 (.move 8 (.entry 1 .leaf .leaf)) (.entry 8 (.move 6 .leaf) .leaf)))) (.entry 8 (.move 4 (.entry 1 (.move 6 .leaf) (.entry 6 (.move 7 (.entry 1 .leaf .leaf)) (.entry 7 (.move 6 .leaf) .leaf)))) .leaf)))))) (.entry 1 (.move 3 (.entry 0 (.move 4 (.entry 6 (.move 7 (.entry 8 .leaf .leaf)) (.entry 7 (.move 6 .leaf) (.entry 8 (.move 6 .leaf) .leaf)))) (.entry 4 (.move 7 (.entry 0 (.move 8 (.entry 6 .leaf .leaf)) (.entry 6 (.move 0 (.entry 8 .leaf .leaf)) (.entry 8 (.move 0 (.entry 6 .leaf .leaf)) .leaf)))) (.entry 6 (.move 4 (.entry 0 (.move 7 (.entry 8 .leaf .leaf)) (.entry 7 (.move 8 (.entry 0 .leaf .leaf)) (.entry 8 (.move 7 (.entry 0 .leaf .leaf)) .leaf)))) (.entry 7 (.move 4 (.entry 0 (.move 6 .leaf) (.entry 6 (.move 8 (.entry 0 .leaf .leaf)) (.entry 8 (.move 6 .leaf) .leaf)))) (.entry 8 (.move 6 (.entry 0 (.move 4 .leaf) (.entry 4 (.move 0 .leaf) (.entry 7 (.move 0 .leaf) .leaf)))) .leaf)))))) (.entry 3 (.move 4 (.entry 0 (.move 6 .leaf) (.entry 1 (.move 6 .leaf) (.entry 6 (.move 0 (.entry 1 (.move 8 .leaf) (.entry 7 (.move 1 .leaf) (.entry 8 (.move 1 .leaf) .leaf)))) (.entry 7 (.move 6 .leaf) (.entry 8 (.move 6 .leaf) .leaf)))))) (.entry 4 (.move 3 (.entry 0 (.move 8 (.entry 1 (.move 7 (.entry 6 .leaf .leaf)) (.entry 6 (.move 1 (.entry 7 .leaf .leaf)) (.entry 7 (.move 1 (.entry 6 .leaf .leaf)) .leaf)))) (.entry 1 (.move 7 (.entry 0 (.move 8 (.entry 6 .leaf .leaf)) (.entry 6 (.move 0 (.entry 8 .leaf .leaf)) (.entry 8 (.move 0 (.entry 6 .leaf .leaf)) .leaf)))) (.entry 6 (.move 0 (.entry 1 (.move 7 (.entry 8 .leaf .leaf)) (.entry 7 (.move 1 .leaf) (.entry 8 (.move 1 .leaf) .leaf)))) (.entry 7 (.move 1 (.entry 0 (.move 8 (.entry 6 .leaf .leaf)) (.entry 6 (.move 0 .leaf) (.entry 8 (.move 0 .leaf) .leaf)))) (.entry 8 (.move 0 (.entry 1 (.move 6 .leaf) (.entry 6 (.move 1 .leaf) (.entry 7 (.move 1 .leaf) .leaf)))) .leaf)))))) (.entry 6 (.move 0 (.entry 1 (.move 4 (.entry 3 (.move 8 .leaf) (.entry 7 (.move 8 .leaf) (.entry 8 (.move 7 (.entry 3 .leaf .leaf)) .leaf)))) (.entry 3 (.move 1 .leaf) (.entry 4 (.move 1 .leaf) (.entry 7 (.move 1 .leaf) (.entry 8 (.move 1 .leaf) .leaf)))))) (.entry 7 (.move 0 (.entry 1 (.move 4 (.entry 3 (.move 6 .leaf) (.entry 6 (.move 8 .leaf) (.entry 8 (.move 6 .leaf) .leaf)))) (.entry 3 (.move 1 .leaf) (.entry 4 (.move 1 .leaf) (.entry 6 (.move 1 .leaf) (.entry 8 (.move 1 .leaf) .leaf)))))) (.entry 8 (.move 0 (.entry 1 (.move 6 (.entry 3 (.move 4 .leaf) (.entry 4 (.move 3 .leaf) (.entry 7 (.move 3 .leaf) .leaf)))) (.entry 3 (.move 1 .leaf) (.entry 4 (.move 1 .leaf) (.entry 6 (.move 1 .leaf) (.entry 7 (.move 1 .leaf) .leaf)))))) .leaf)))))))) (.entry 6 (.move 4 (.entry 0 (.move 3 (.entry 1 (.move 5 .leaf) (.entry 2 (.move 5 .leaf) (.entry 5 (.move 1 (.entry 2 (.move 7 .leaf) (.entry 7 (.move 8 (.entry 2 .leaf .leaf)) (.entry 8 (.move 7 .leaf) .leaf)))) (.entry 7 (.move 5 .leaf) (.entry 8 (.move 5 .leaf) .leaf)))))) (.entry 1 (.move 0 (.entry 2 (.move 8 .leaf) (.entry 3 (.move 8 .leaf) (.entry 5 (.move 8 .leaf) (.entry 7 (.move 8 .leaf) (.entry 8 (.move 7 (.entry 2 (.move 5 (.entry 3 .leaf .leaf)) (.entry 3 (.move 2 (.entry 5 .leaf .leaf)) (.entry 5 (.move 2 (.entry 3 .leaf .leaf)) .leaf)))) .leaf)))))) (.entry 2 (.move 1 (.entry 0 (.move 7 .leaf) (.entry 3 (.move 7 .leaf) (.entry 5 (.move 7 .leaf) (.entry 7 (.move 8 (.entry 0 (.move 3 (.entry 5 .leaf .leaf)) (.entry 3 (.move 0 .leaf) (.entry 5 (.move 0 .leaf) .leaf)))) (.entry 8 (.move 7 .leaf) .leaf)))))) (.entry 3 (.move 0 (.entry 1 (.move 8 .leaf) (.entry 2 (.move 8 .leaf) (.entry 5 (.move 8 .leaf) (.entry 7 (.move 8 .leaf) (.entry 8 (.move 7 (.entry 1 (.move 2 (.entry 5 .leaf .leaf)) (.entry 2 (.move 1 .leaf) (.entry 5 (.move 1 .leaf) .leaf)))) .leaf)))))) (.entry 5 (.move 1 (.entry 0 (.move 7 .leaf) (.entry 2 (.move 7 .leaf) (.entry 3 (.move 7 .leaf) (.entry 7 (.move 8 (.entry 0 (.move 3 (.entry 2 .leaf .leaf)) (.entry 2 (.move 0 .leaf) (.entry 3 (.move 0 .leaf) .leaf)))) (.entry 8 (.move 7 .leaf) .leaf)))))) (.entry 7 (.move 8 (.entry 0 (.move 3 (.entry 1 (.move 5 .leaf) (.entry 2 (.move 5 .leaf) (.entry 5 (.move 1 (.entry 2 .leaf .leaf)) .leaf)))) (.entry 1 (.move 0 .leaf) (.entry 2 (.move 0 .leaf) (.entry 3 (.move 0 .leaf) (.entry 5 (.move 0 .leaf) .leaf)))))) (.entry 8 (.move 7 (.entry 0 (.move 1 .leaf) (.entry 1 (.move 0 (.entry 2 (.move 5 (.entry 3 .leaf .leaf)) (.entry 3 (.move 2 (.entry 5 .leaf .leaf)) (.entry 5 (.move 2 (.entry 3 .leaf .leaf)) .leaf)))) (.entry 2 (.move 1 .leaf) (.entry 3 (.move 1 .leaf) (.entry 5 (.move 1 .leaf) .leaf)))))) .leaf)))))))) (.entry 7 (.move 1 (.entry 0 (.move 6 (.entry 2 (.move 4 (.entry 3 (.move 5 (.entry 8 .leaf .leaf)) (.entry 5 (.move 8 (.entry 3 .leaf .leaf)) (.entry 8 (.move 5 (.entry 3 .leaf .leaf)) .leaf)))) (.entry 3 (.move 4 (.entry 2 (.move 5 (.entry 8 .leaf .leaf)) (.entry 5 (.move 2 .leaf) (.entry 8 (.move 2 .leaf) .leaf)))) (.entry 4 (.move 8 (.entry 2 (.move 3 (.entry 5 .leaf .leaf)) (.entry 3 (.move 5 (.entry 2 .leaf .leaf)) (.entry 5 (.move 3 (.entry 2 .leaf .leaf)) .leaf)))) (.entry 5 (.move 4 (.entry 2 (.move 8 (.entry 3 .leaf .leaf)) (.entry 3 (.move 2 .leaf) (.entry 8 (.move 2 .leaf) .leaf)))) (.entry 8 (.move 4 (.entry 2 (.move 5 (.entry 3 .leaf .leaf)) (.entry 3 (.move 2 .leaf) (.entry 5 (.move 2 .leaf) .leaf)))) .leaf)))))) (.entry 2 (.move 6 (.entry 0 (.move 4 (.entry 3 (.move 5 (.entry 8 .leaf .leaf)) (.entry 5 (.move 8 (.entry 3 .leaf .leaf)) (.entry 8 (.move 5 (.entry 3 .leaf .leaf)) .leaf)))) (.entry 3 (.move 4 (.entry 0 (.move 5 (.entry 8 .leaf .leaf)) (.entry 5 (.move 8 (.entry 0 .leaf .leaf)) (.entry 8 (.move 5 (.entry 0 .leaf .leaf)) .leaf)))) (.entry 4 (.move 0 (.entry 3 (.move 5 (.entry 8 .leaf .leaf)) (.entry 5 (.move 3 .leaf) (.entry 8 (.move 3 .leaf) .leaf)))) (.entry 5 (.move 8 (.entry 0 (.move 3 (.entry 4 .leaf .leaf)) (.entry 3 (.move 4 (.entry 0 .leaf .leaf)) (.entry 4 (.move 3 (.entry 0 .leaf .leaf)) .leaf)))) (.entry 8 (.move 5 (.entry 0 (.move 4 (.entry 3 .leaf .leaf)) (.entry 3 (.move 0 (.entry 4 .leaf .leaf)) (.entry 4 (.move 0 (.entry 3 .leaf .leaf)) .leaf)))) .leaf)))))) (.entry 3 (.move 6 (.entry 0 (.move 4 (.entry 2 (.move 5 (.entry 8 .leaf .leaf)) (.entry 5 (.move 2 .leaf) (.entry 8 (.move 2 .leaf) .leaf)))) (.entry 2 (.move 4 (.entry 0 (.move 5 (.entry 8 .leaf .leaf)) (.entry 5 (.move 8 (.entry 0 .leaf .leaf)) (.entry 8 (.move 5 (.entry 0 .leaf .leaf)) .leaf)))) (.entry 4 (.move 5 (.entry 0 (.move 8 (.entry 2 .leaf .leaf)) (.entry 2 (.move 0 (.entry 8 .leaf .leaf)) (.entry 8 (.move 0 (.entry 2 .leaf .leaf)) .leaf)))) (.entry 5 (.move 4 (.entry 0 (.move 2 .leaf) (.entry 2 (.move 8 (.entry 0 .leaf .leaf)) (.entry 8 (.move 2 .leaf) .leaf)))) (.entry 8 (.move 2 (.entry 0 (.move 4 .leaf) (.entry 4 (.move 0 .leaf) (.entry 5 (.move 0 .leaf) .leaf)))) .leaf)))))) (.entry 4 (.move 0 (.entry 2 (.move 6 (.entry 3 (.move 5 (.entry 8 .leaf .leaf)) (.entry 5 (.move 3 .leaf) (.entry 8 (.move 3 .leaf) .leaf)))) (.entry 3 (.move 2 .leaf) (.entry 5 (.move 2 .leaf) (.entry 6 (.move 2 .leaf) (.entry 8 (.move 2 .leaf) .leaf)))))) (.entry 5 (.move 6 (.entry 0 (.move 4 (.entry 2 (.move 8 (.entry 3 .leaf .leaf)) (.entry 3 (.move 2 .leaf) (.entry 8 (.move 2 .leaf) .leaf)))) (.entry 2 (.move 8 (.entry 0 (.move 3 (.entry 4 .leaf .leaf)) (.entry 3 (.move 4 (.entry 0 .leaf .leaf)) (.entry 4 (.move 3 (.entry 0 .leaf .leaf)) .leaf)))) (.entry 3 (.move 4 (.entry 0 (.move 2 .leaf) (.entry 2 (.move 8 (.entry 0 .leaf .leaf)) (.entry 8 (.move 2 .leaf) .leaf)))) (.entry 4 (.move 3 (.entry 0 (.move 8 (.entry 2 .leaf .leaf)) (.entry 2 (.move 0 .leaf) (.entry 8 (.move 0 .leaf) .leaf)))) (.entry 8 (.move 2 (.entry 0 (.move 4 .leaf) (.entry 3 (.move 0 .leaf) (.entry 4 (.move 0 .leaf) .leaf)))) .leaf)))))) (.entry 6 (.move 8 (.entry 0 (.move 3 (.entry 2 (.move 4 (.entry 5 .leaf .leaf)) (.entry 4 (.move 2 (.entry 5 .leaf .leaf)) (.entry 5 (.move 2 (.entry 4 .leaf .leaf)) .leaf)))) (.entry 2 (.move 4 (.entry 0 (.move 3 (.entry 5 .leaf .leaf)) (.entry 3 (.move 0 .leaf) (.entry 5 (.move 0 .leaf) .leaf)))) (.entry 3 (.move 0 (.entry 2 (.move 4 .leaf) (.entry 4 (.move 2 .leaf) (.entry 5 (.move 2 .leaf) .leaf)))) (.entry 4 (.move 2 (.entry 0 (.move 5 .leaf) (.entry 3 (.move 0 .leaf) (.entry 5 (.move 0 .leaf) .leaf)))) (.entry 5 (.move 0 (.entry 2 (.move 4 .leaf) (.entry 3 (.move 2 .leaf) (.entry 4 (.move 2 .leaf) .leaf)))) .leaf)))))) (.entry 8 (.move 6 (.entry 0 (.move 4 (.entry 2 (.move 5 (.entry 3 .leaf .leaf)) (.entry 3 (.move 2 .leaf) (.entry 5 (.move 2 .leaf) .leaf)))) (.entry 2 (.move 5 (.entry 0 (.move 4 (.entry 3 .leaf .leaf)) (.entry 3 (.move 0 (.entry 4 .leaf .leaf)) (.entry 4 (.move 0 (.entry 3 .leaf .leaf)) .leaf)))) (.entry 3 (.move 2 (.entry 0 (.move 4 .leaf) (.entry 4 (.move 0 .leaf) (.entry 5 (.move 0 .leaf) .leaf)))) (.entry 4 (.move 0 (.entry 2 (.move 3 .leaf) (.entry 3 (.move 2 .leaf) (.entry 5 (.move 2 .leaf) .leaf)))) (.entry 5 (.move 2 (.entry 0 (.move 4 .leaf) (.entry 3 (.move 0 .leaf) (.entry 4 (.move 0 .leaf) .leaf)))) .leaf)))))) .leaf)))))))) (.entry 8 (.move 4 (.entry 0 (.move 1 (.entry 2 (.move 7 .leaf) (.entry 3 (.move 7 .leaf) (.entry 5 (.move 7 .leaf) (.entry 6 (.move 7 .leaf) (.entry 7 (.move 6 (.entry 2 (.move 5 (.entry 3 .leaf .leaf)) (.entry 3 (.move 2 .leaf) (.entry 5 (.move 2 .leaf) .leaf)))) .leaf)))))) (.entry 1 (.move 0 (.entry 2 (.move 5 (.entry 3 (.move 6 (.entry 7 .leaf .leaf)) (.entry 6 (.move 3 .leaf) (.entry 7 (.move 3 .leaf) .leaf)))) (.entry 3 (.move 2 (.entry 5 (.move 6 .leaf) (.entry 6 (.move 7 (.entry 5 .leaf .leaf)) (.entry 7 (.move 6 .leaf) .leaf)))) (.entry 5 (.move 2 (.entry 3 (.move 6 .leaf) (.entry 6 (.move 7 (.entry 3 .leaf .leaf)) (.entry 7 (.move 6 .leaf) .leaf)))) (.entry 6 (.move 7 (.entry 2 (.move 5 (.entry 3 .leaf .leaf)) (.entry 3 (.move 2 (.entry 5 .leaf .leaf)) (.entry 5 (.move 2 (.entry 3 .leaf .leaf)) .leaf)))) (.entry 7 (.move 6 (.entry 2 (.move 3 .leaf) (.entry 3 (.move 2 .leaf) (.entry 5 (.move 2 .leaf) .leaf)))) .leaf)))))) (.entry 2 (.move 5 (.entry 0 (.move 3 .leaf) (.entry 1 (.move 3 .leaf) (.entry 3 (.move 0 (.entry 1 (.move 6 (.entry 7 .leaf .leaf)) (.entry 6 (.move 7 (.entry 1 .leaf .leaf)) (.entry 7 (.move 6 (.entry 1 .leaf .leaf)) .leaf)))) (.entry 6 (.move 3 .leaf) (.entry 7 (.move 3 .leaf) .leaf)))))) (.entry 3 (.move 0 (.entry 1 (.move 2 (.entry 5 (.move 6 .leaf) (.entry 6 (.move 7 (.entry 5 .leaf .leaf)) (.entry 7 (.move 6 .leaf) .leaf)))) (.entry 2 (.move 5 (.entry 1 (.move 6 (.entry 7 .leaf .leaf)) (.entry 6 (.move 7 (.entry 1 .leaf .leaf)) (.entry 7 (.move 6 (.entry 1 .leaf .leaf)) .leaf)))) (.entry 5 (.move 2 (.entry 1 (.move 6 .leaf) (.entry 6 (.move 1 .leaf) (.entry 7 (.move 1 .leaf) .leaf)))) (.entry 6 (.move 7 (.entry 1 (.move 2 (.entry 5 .leaf .leaf)) (.entry 2 (.move 1 .leaf) (.entry 5 (.move 1 .leaf) .leaf)))) (.entry 7 (.move 6 (.entry 1 (.move 2 .leaf) (.entry 2 (.move 5 (.entry 1 .leaf .leaf)) (.entry 5 (.move 2 .leaf) .leaf)))) .leaf)))))) (.entry 5 (.move 2 (.entry 0 (.move 6 .leaf) (.entry 1 (.move 6 .leaf) (.entry 3 (.move 6 .leaf) (.entry 6 (.move 7 (.entry 0 (.move 1 .leaf) (.entry 1 (.move 0 (.entry 3 .leaf .leaf)) (.entry 3 (.move 1 .leaf) .leaf)))) (.entry 7 (.move 6 .leaf) .leaf)))))) (.entry 6 (.move 7 (.entry 0 (.move 1 .leaf) (.entry 1 (.move 0 (.entry 2 (.move 5 (.entry 3 .leaf .leaf)) (.entry 3 (.move 2 (.entry 5 .leaf .leaf)) (.entry 5 (.move 2 (.entry 3 .leaf .leaf)) .leaf)))) (.entry 2 (.move 1 .leaf) (.entry 3 (.move 1 .leaf) (.entry 5 (.move 1 .leaf) .leaf)))))) (.entry 7 (.move 6 (.entry 0 (.move 2 .leaf) (.entry 1 (.move 2 .leaf) (.entry 2 (.move 5 (.entry 0 (.move 3 .leaf) (.entry 1 (.move 3 .leaf) (.entry 3 (.move 0 (.entry 1 .leaf .leaf)) .leaf)))) (.entry 3 (.move 2 .leaf) (.entry 5 (.move 2 .leaf) .leaf)))))) .leaf)))))))) .leaf)))))))))

/-- Certificate: the engine's own replies for holder X opening from the
empty board and answering every opponent-O line of play. -/
def certX : STree :=
  (.move 0 (.entry 1 (.move 3 (.entry 2 (.move 6 .leaf) (.entry 4 (.move 6 .leaf) (.entry 5 (.move 6 .leaf) (.entry 6 (.move 4 (.entry 2 (.move 5 .leaf) (.entry 5 (.move 8 .leaf) (.entry 7 (.move 5 .leaf) (.entry 8 (.move 5 .leaf) .leaf))))) (.entry 7 (.move 6 .leaf) (.entry 8 (.move 6 .leaf) .leaf))))))) (.entry 2 (.move 3 (.entry 1 (.move 6 .leaf) (.entry 4 (.move 6 .leaf) (.entry 5 (.move 6 .leaf) (.entry 6 (.move 4 (.entry 1 (.move 5 .leaf) (.entry 5 (.move 8 .leaf) (.entry 7 (.move 5 .leaf) (.entry 8 (.move 5 .leaf) .leaf))))) (.entry 7 (.move 6 .leaf) (.entry 8 (.move 6 .leaf) .leaf))))))) (.entry 3 (.move 1 (.entry 2 (.move 4 (.entry 5 (.move 7 .leaf) (.entry 6 (.move 7 .leaf) (.entry 7 (.move 8 .leaf) (.entry 8 (.move 7 .leaf) .leaf))))) (.entry 4 (.move 2 .leaf) (.entry 5 (.move 2 .leaf) (.entry 6 (.move 2 .leaf) (.entry 7 (.move 2 .leaf) (.entry 8 (.move 2 .leaf) .leaf))))))) (.entry 4 (.move 1 (.entry 2 (.move 6 (.entry 3 (.move 5 (.entry 7 (.move 8 .leaf) (.entry 8 (.move 7 .leaf) .leaf))) (.entry 5 (.move 3 .leaf) (.entry 7 (.move 3 .leaf) (.entry 8 (.move 3 .leaf) .leaf))))) (.entry 3 (.move 2 .leaf) (.entry 5 (.move 2 .leaf) (.entry 6 (.move 2 .leaf) (.entry 7 (.move 2 .leaf) (.entry 8 (.move 2 .leaf) .leaf))))))) (.entry 5 (.move 2 (.entry 1 (.move 4 (.entry 3 (.move 6 .leaf) (.entry 6 (.move 8 .leaf) (.entry 7 (.move 6 .leaf) (.entry 8 (.move 6 .leaf) .leaf))))) (.entry 3 (.move 1 .leaf) (.entry 4 (.move 1 .leaf) (.entry 6 (.move 1 .leaf) (.entry 7 (.move 1 .leaf) (.entry 8 (.move 1 .leaf) .leaf))))))) (.entry 6 (.move 1 (.entry 2 (.move 4 (.entry 3 (.move 7 .leaf) (.entry 5 (.move 7 .leaf) (.entry 7 (.move 8 .leaf) (.entry 8 (.move 7 .leaf) .leaf))))) (.entry 3 (.move 2 .leaf) (.entry 4 (.move 2 .leaf) (.entry 5 (.move 2 .leaf) (.entry 7 (.move 2 .leaf) (.entry 8 (.move 2 .leaf) .leaf))))))) (.entry 7 (.move 2 (.entry 1 (.move 4 (.entry 3 (.move 6 .leaf) (.entry 5 (.move 6 .leaf) (.entry 6 (.move 8 .leaf) (.entry 8 (.move 6 .leaf) .leaf))))) (.entry 3 (.move 1 .leaf) (.entry 4 (.move 1 .leaf) (.entry 5 (.move 1 .leaf) (.entry 6 (.move 1 .leaf) (.entry 8 (.move 1 .leaf) .leaf))))))) (.entry 8 (.move 2 (.entry 1 (.move 6 (.entry 3 (.move 4 .leaf) (.entry 4 (.move 3 .leaf) (.entry 5 (.move 3 .leaf) (.entry 7 (.move 3 .leaf) .leaf))))) (.entry 3 (.move 1 .leaf) (.entry 4 (.move 1 .leaf) (.entry 5 (.move 1 .leaf) (.entry 6 (.move 1 .leaf) (.entry 7 (.move 1 .leaf) .leaf))))))) .leaf)))))))))

/-- Negation of a JS number (used to relate the two players' values). -/
def jneg : JNum → JNum
  | .ninf => .pinf
  | .fin n => .fin (-n)
  | .pinf => .ninf

/-- `v` is the maximum of the list `l`. -/
def isMaxOf (v : JNum) (l : List JNum) : Prop :=
  v ∈ l ∧ ∀ x ∈ l, jleb x v = true

/-- `v` is the minimum of the list `l`. -/
def isMinOf (v : JNum) (l : List JNum) : Prop :=
  v ∈ l ∧ ∀ x ∈ l, jleb v x = true

/-- A line whose three cells are non-empty and equal (the condition of
App.js lines 87-91). -/
def lineQualifies (b : Board) (l : Nat × Nat × Nat) : Bool :=
  match b.getD l.1 none with
  | some p => b.getD l.2.1 none == some p && b.getD l.2.2 none == some p
  | none => false

/-- The list of minimax scores of the moves available to the side to
move (`mover`), from depth `d + 1` with the flag flipped. -/
def childScores (ai : Player) (b : Board) (d : Nat) (m : Bool) : List JNum :=
  (emptiesList b).map
    (fun i => minimax ai (jsSet b i (some (if m then ai else ai.other))) (d + 1) (!m))

/-- The body of the move-selection loop of `computeAIMove`
(App.js lines 130-140), as a named function for reasoning. -/
def argmaxStep (f : Nat → JNum) (g : Nat → Bool) (st : JNum × Int) (i : Nat) : JNum × Int :=
  if g i then (if jgtb (f i) st.1 then (f i, (i : Int)) else st) else st

/-- A concrete ongoing state one move away from an X win, used to
exercise the score-tally transition at index 2. -/
def tallyState : AppState :=
  ⟨.pvp, [some .X, some .X, none, some .O, some .O, none, none, none, none],
    true, .ongoing, ⟨2, 1, 0⟩⟩

/-
  Order toolkit for `JNum`.
-/

theorem jleb_refl (a : JNum) : jleb a a = true := by
  cases a <;> simp [jleb]

theorem jleb_trans {a b c : JNum} (h1 : jleb a b = true) (h2 : jleb b c = true) :
    jleb a c = true := by
  cases a <;> cases b <;> cases c <;> simp_all [jleb] <;> omega

theorem jleb_antisymm {a b : JNum} (h1 : jleb a b = true) (h2 : jleb b a = true) :
    a = b := by
  cases a <;> cases b <;> simp_all [jleb] <;> omega

theorem jgtb_eq_not_jleb (a b : JNum) : jgtb a b = !jleb a b := by
  cases a <;> cases b <;>
    simp [jgtb, jleb, ← decide_not, decide_eq_decide, Int.not_le]

theorem jgtb_trans {a b c : JNum} (h1 : jgtb a b = true) (h2 : jgtb b c = true) :
    jgtb a c = true := by
  cases a <;> cases b <;> cases c <;> simp_all [jgtb] <;> omega

theorem jleb_of_jgtb {a b : JNum} (h : jgtb a b = true) : jleb b a = true := by
  cases a <;> cases b <;> simp_all [jgtb, jleb] <;> omega

theorem jgtb_of_jgtb_of_jleb {a b c : JNum} (h1 : jgtb b c = true)
    (h2 : jleb a c = true) : jgtb b a = true := by
  cases a <;> cases b <;> cases c <;> simp_all [jgtb, jleb] <;> omega

theorem eq_ninf_of_jleb {a : JNum} (h : jleb a .ninf = true) : a = .ninf := by
  cases a <;> simp_all [jleb]

theorem eq_ninf_of_not_jgtb {a : JNum} (h : jgtb a .ninf = false) : a = .ninf := by
  cases a <;> simp_all [jgtb]

theorem eq_pinf_of_jleb {a : JNum} (h : jleb .pinf a = true) : a = .pinf := by
  cases a <;> simp_all [jleb]

theorem eq_pinf_of_not_jgtb {a : JNum} (h : jgtb .pinf a = false) : a = .pinf := by
  cases a <;> simp_all [jgtb]

theorem jleb_left_jmax (a b : JNum) : jleb a (jmax a b) = true := by
  cases a <;> cases b <;> simp [jmax, jleb] <;> split <;> omega

theorem jleb_right_jmax (a b : JNum) : jleb b (jmax a b) = true := by
  cases a <;> cases b <;> simp [jmax, jleb] <;> split <;> omega

theorem jmax_choice (a b : JNum) : jmax a b = a ∨ jmax a b = b := by
  cases a with
  | ninf => exact Or.inr rfl
  | pinf => exact Or.inl rfl
  | fin x =>
    cases b with
    | ninf => exact Or.inl rfl
    | pinf => exact Or.inr rfl
    | fin y =>
      by_cases h : x < y
      · exact Or.inr (by simp [jmax, h])
      · exact Or.inl (by simp [jmax, h])

theorem jleb_jmin_left (a b : JNum) : jleb (jmin a b) a = true := by
  cases a <;> cases b <;> simp [jmin, jleb] <;> split <;> omega

theorem jleb_jmin_right (a b : JNum) : jleb (jmin a b) b = true := by
  cases a <;> cases b <;> simp [jmin, jleb] <;> split <;> omega

theorem jmin_choice (a b : JNum) : jmin a b = a ∨ jmin a b = b := by
  cases a with
  | pinf => exact Or.inr rfl
  | ninf => exact Or.inl rfl
  | fin x =>
    cases b with
    | pinf => exact Or.inl rfl
    | ninf => exact Or.inr rfl
    | fin y =>
      by_cases h : x < y
      · exact Or.inl (by simp [jmin, h])
      · exact Or.inr (by simp [jmin, h])

theorem jgtb_jmax_iff (a b c : JNum) : jgtb (jmax a b) c = (jgtb a c || jgtb b c) := by
  cases a <;> cases b <;> cases c <;> simp [jmax, jgtb] <;> split <;>
    simp_all [jgtb] <;> omega

theorem jgtb_c_jmax_iff (a b c : JNum) : jgtb c (jmax a b) = (jgtb c a && jgtb c b) := by
  cases a <;> cases b <;> cases c <;> simp [jmax, jgtb] <;> split <;>
    simp_all [jgtb] <;> omega

theorem jgtb_c_jmin_iff (a b c : JNum) : jgtb c (jmin a b) = (jgtb c a || jgtb c b) := by
  cases a <;> cases b <;> cases c <;> simp [jmin, jgtb] <;> split <;>
    simp_all [jgtb] <;> omega

theorem jgtb_jmin_iff (a b c : JNum) : jgtb (jmin a b) c = (jgtb a c && jgtb b c) := by
  cases a <;> cases b <;> cases c <;> simp [jmin, jgtb] <;> split <;>
    simp_all [jgtb] <;> omega

/-
  Fold toolkit: `foldl jmax` and `foldl jmin` over score lists.
-/

theorem jleb_foldl_jmax_acc (l : List JNum) (acc : JNum) :
    jleb acc (l.foldl jmax acc) = true := by
  induction l generalizing acc with
  | nil => exact jleb_refl acc
  | cons x xs ih => exact jleb_trans (jleb_left_jmax acc x) (ih (jmax acc x))

theorem jleb_foldl_jmax_of_mem {l : List JNum} {x : JNum} (hx : x ∈ l) (acc : JNum) :
    jleb x (l.foldl jmax acc) = true := by
  induction l generalizing acc with
  | nil => cases hx
  | cons y ys ih =>
    rcases List.mem_cons.mp hx with h | h
    · subst h
      exact jleb_trans (jleb_right_jmax acc x) (jleb_foldl_jmax_acc ys (jmax acc x))
    · exact ih h (jmax acc y)

theorem foldl_jmax_choice (l : List JNum) (acc : JNum) :
    l.foldl jmax acc = acc ∨ l.foldl jmax acc ∈ l := by
  induction l generalizing acc with
  | nil => exact Or.inl rfl
  | cons x xs ih =>
    rcases ih (jmax acc x) with h | h
    · rcases jmax_choice acc x with h2 | h2
      · exact Or.inl (by rw [List.foldl_cons, h, h2])
      · exact Or.inr (by rw [List.foldl_cons, h, h2]; exact List.mem_cons_self x xs)
    · exact Or.inr (List.mem_cons_of_mem x h)

theorem foldl_jmax_mem {l : List JNum} (hl : l ≠ []) :
    l.foldl jmax .ninf ∈ l := by
  rcases foldl_jmax_choice l .ninf with h | h
  · rcases List.exists_mem_of_ne_nil l hl with ⟨x, hx⟩
    have hle := jleb_foldl_jmax_of_mem hx (JNum.ninf)
    rw [h] at hle
    have := eq_ninf_of_jleb hle
    rw [h, ← this]
    exact hx
  · exact h

theorem foldl_jmax_gt (l : List JNum) (acc c : JNum) :
    jgtb (l.foldl jmax acc) c = (jgtb acc c || l.any (fun x => jgtb x c)) := by
  induction l generalizing acc with
  | nil => simp
  | cons x xs ih =>
    rw [List.foldl_cons, ih (jmax acc x), jgtb_jmax_iff, List.any_cons, Bool.or_assoc]

theorem foldl_jmax_lt (l : List JNum) (acc c : JNum) :
    jgtb c (l.foldl jmax acc) = (jgtb c acc && l.all (fun x => jgtb c x)) := by
  induction l generalizing acc with
  | nil => simp
  | cons x xs ih =>
    rw [List.foldl_cons, ih (jmax acc x), jgtb_c_jmax_iff, List.all_cons, Bool.and_assoc]

theorem jleb_foldl_jmin_acc (l : List JNum) (acc : JNum) :
    jleb (l.foldl jmin acc) acc = true := by
  induction l generalizing acc with
  | nil => exact jleb_refl acc
  | cons x xs ih => exact jleb_trans (ih (jmin acc x)) (jleb_jmin_left acc x)

theorem jleb_foldl_jmin_of_mem {l : List JNum} {x : JNum} (hx : x ∈ l) (acc : JNum) :
    jleb (l.foldl jmin acc) x = true := by
  induction l generalizing acc with
  | nil => cases hx
  | cons y ys ih =>
    rcases List.mem_cons.mp hx with h | h
    · subst h
      exact jleb_trans (jleb_foldl_jmin_acc ys (jmin acc x)) (jleb_jmin_right acc x)
    · exact ih h (jmin acc y)

theorem foldl_jmin_choice (l : List JNum) (acc : JNum) :
    l.foldl jmin acc = acc ∨ l.foldl jmin acc ∈ l := by
  induction l generalizing acc with
  | nil => exact Or.inl rfl
  | cons x xs ih =>
    rcases ih (jmin acc x) with h | h
    · rcases jmin_choice acc x with h2 | h2
      · exact Or.inl (by rw [List.foldl_cons, h, h2])
      · exact Or.inr (by rw [List.foldl_cons, h, h2]; exact List.mem_cons_self x xs)
    · exact Or.inr (List.mem_cons_of_mem x h)

theorem foldl_jmin_mem {l : List JNum} (hl : l ≠ []) :
    l.foldl jmin .pinf ∈ l := by
  rcases foldl_jmin_choice l .pinf with h | h
  · rcases List.exists_mem_of_ne_nil l hl with ⟨x, hx⟩
    have hle := jleb_foldl_jmin_of_mem hx (JNum.pinf)
    rw [h] at hle
    have := eq_pinf_of_jleb hle
    rw [h, ← this]
    exact hx
  · exact h

theorem foldl_jmin_lt (l : List JNum) (acc c : JNum) :
    jgtb c (l.foldl jmin acc) = (jgtb c acc || l.any (fun x => jgtb c x)) := by
  induction l generalizing acc with
  | nil => simp
  | cons x xs ih =>
    rw [List.foldl_cons, ih (jmin acc x), jgtb_c_jmin_iff, List.any_cons, Bool.or_assoc]

theorem foldl_jmin_gt (l : List JNum) (acc c : JNum) :
    jgtb (l.foldl jmin acc) c = (jgtb acc c && l.all (fun x => jgtb x c)) := by
  induction l generalizing acc with
  | nil => simp
  | cons x xs ih =>
    rw [List.foldl_cons, ih (jmin acc x), jgtb_jmin_iff, List.all_cons, Bool.and_assoc]

/-
  Board access toolkit: reading and writing cells, counting empties.
-/

theorem getD_set_self (l : Board) (i : Nat) (v : Cell) (h : i < l.length) :
    (l.set i v).getD i none = v := by
  induction l generalizing i with
  | nil => simp at h
  | cons c tl ih =>
    cases i with
    | zero => rfl
    | succ n => exact ih n (by simpa using h)

theorem getD_set_ne (l : Board) (i k : Nat) (v : Cell) (hk : k ≠ i) :
    (l.set i v).getD k none = l.getD k none := by
  induction l generalizing i k with
  | nil => rfl
  | cons c tl ih =>
    cases i with
    | zero =>
      cases k with
      | zero => exact absurd rfl hk
      | succ n => rfl
    | succ m =>
      cases k with
      | zero => rfl
      | succ n => exact ih m n (fun he => hk (by rw [he]))

theorem jsSet_eq_set (l : Board) (i : Nat) (v : Cell) (h : i < l.length) :
    jsSet l i v = l.set i v := by
  simp [jsSet, h]

theorem length_jsSet (l : Board) (i : Nat) (v : Cell) (h : i < l.length) :
    (jsSet l i v).length = l.length := by
  rw [jsSet_eq_set l i v h]
  exact List.length_set l i v

theorem getD_jsSet_self (l : Board) (i : Nat) (v : Cell) (h : i < l.length) :
    (jsSet l i v).getD i none = v := by
  rw [jsSet_eq_set l i v h]
  exact getD_set_self l i v h

theorem getD_jsSet_ne (l : Board) (i k : Nat) (v : Cell) (h : i < l.length) (hk : k ≠ i) :
    (jsSet l i v).getD k none = l.getD k none := by
  rw [jsSet_eq_set l i v h]
  exact getD_set_ne l i k v hk

theorem countP_set_isNone (l : Board) (i : Nat) (p : Player) (h : i < l.length)
    (he : (l.getD i none).isNone = true) :
    (l.set i (some p)).countP (fun c => c.isNone) + 1 = l.countP (fun c => c.isNone) := by
  induction l generalizing i with
  | nil => simp at h
  | cons c tl ih =>
    cases i with
    | zero =>
      have hc : c = none := by
        cases c
        · rfl
        · simp [List.getD_cons_zero] at he
      subst hc
      simp [List.countP_cons]
    | succ n =>
      have hrec := ih n (by simpa using h) (by simpa using he)
      cases c <;> simp [List.countP_cons] <;> omega

theorem countP_jsSet_isNone (l : Board) (i : Nat) (p : Player) (h : i < l.length)
    (he : (l.getD i none).isNone = true) :
    (jsSet l i (some p)).countP (fun c => c.isNone) + 1 = l.countP (fun c => c.isNone) := by
  rw [jsSet_eq_set l i (some p) h]
  exact countP_set_isNone l i p h he

theorem countP_isNone_zero_iff (l : Board) :
    l.countP (fun c => c.isNone) = 0 ↔ l.all (fun v => v.isSome) = true := by
  induction l with
  | nil => simp
  | cons c tl ih => cases c <;> simp [List.countP_cons, List.all_cons, ih]

theorem exists_empty_of_not_full (l : Board) (hnf : l.all (fun v => v.isSome) = false) :
    ∃ i, i < l.length ∧ (l.getD i none).isNone = true := by
  induction l with
  | nil => simp at hnf
  | cons c tl ih =>
    rw [List.all_cons, Bool.and_eq_false_iff] at hnf
    rcases hnf with hc | htl
    · refine ⟨0, by simp, ?_⟩
      cases c
      · rfl
      · simp at hc
    · rcases ih htl with ⟨i, hi, he⟩
      exact ⟨i + 1, by simpa using hi, by simpa using he⟩

theorem mem_idx9 (i : Nat) : i ∈ idx9 ↔ i < 9 := by
  simp [idx9]
  omega

theorem mem_emptiesList (b : Board) (i : Nat) :
    i ∈ emptiesList b ↔ (i < 9 ∧ (b.getD i none).isNone = true) := by
  unfold emptiesList
  rw [List.mem_filter, mem_idx9]

theorem emptiesList_ne_nil (b : Board) (hlen : b.length = 9)
    (hnf : b.all (fun v => v.isSome) = false) : emptiesList b ≠ [] := by
  rcases exists_empty_of_not_full b hnf with ⟨i, hi, he⟩
  rw [hlen] at hi
  exact List.ne_nil_of_mem ((mem_emptiesList b i).mpr ⟨hi, he⟩)

theorem foldl_guard (g : Nat → Bool) (f : Nat → JNum) (comb : JNum → JNum → JNum)
    (l : List Nat) (init : JNum) :
    l.foldl (fun acc i => if g i then comb acc (f i) else acc) init
      = ((l.filter g).map f).foldl comb init := by
  induction l generalizing init with
  | nil => rfl
  | cons x xs ih =>
    by_cases h : g x = true
    · simp only [List.foldl_cons, List.filter_cons, h, if_true, List.map_cons]
      rw [ih]
    · simp only [List.foldl_cons, List.filter_cons, h, if_false]
      rw [ih]
      simp [h]

/-
  The defining cases of the search value function.
-/

theorem minimaxF_winner (ai : Player) (fuel : Nat) (b : Board) (d : Nat) (m : Bool)
    (w : Player) (hw : (calculateWinner b).1 = some w) :
    minimaxF ai fuel b d m
      = if w = ai then .fin (10 - (d : Int)) else .fin ((d : Int) - 10) := by
  cases fuel with
  | zero =>
    show minimaxStep ai (fun _ _ _ => .fin 0) b d m = _
    unfold minimaxStep
    rw [hw]
  | succ n =>
    show minimaxStep ai (minimaxF ai n) b d m = _
    unfold minimaxStep
    rw [hw]

theorem minimaxF_full (ai : Player) (fuel : Nat) (b : Board) (d : Nat) (m : Bool)
    (hw : (calculateWinner b).1 = none) (hf : b.all (fun v => v.isSome) = true) :
    minimaxF ai fuel b d m = .fin 0 := by
  cases fuel with
  | zero =>
    show minimaxStep ai (fun _ _ _ => .fin 0) b d m = _
    unfold minimaxStep
    rw [hw]
    simp [hf]
  | succ n =>
    show minimaxStep ai (minimaxF ai n) b d m = _
    unfold minimaxStep
    rw [hw]
    simp [hf]

theorem minimax_winner (ai : Player) (b : Board) (d : Nat) (m : Bool)
    (w : Player) (hw : (calculateWinner b).1 = some w) :
    minimax ai b d m
      = if w = ai then .fin (10 - (d : Int)) else .fin ((d : Int) - 10) :=
  minimaxF_winner ai _ b d m w hw

theorem minimax_full (ai : Player) (b : Board) (d : Nat) (m : Bool)
    (hw : (calculateWinner b).1 = none) (hf : b.all (fun v => v.isSome) = true) :
    minimax ai b d m = .fin 0 :=
  minimaxF_full ai _ b d m hw hf

theorem minimax_else (ai : Player) (b : Board) (d : Nat) (m : Bool)
    (hlen : b.length = 9) (hw : (calculateWinner b).1 = none)
    (hnf : b.all (fun v => v.isSome) = false) :
    minimax ai b d m
      = if m then (childScores ai b d true).foldl jmax .ninf
        else (childScores ai b d false).foldl jmin .pinf := by
  unfold minimax
  obtain ⟨n, hn⟩ : ∃ n, b.countP (fun c => c.isNone) = n + 1 := by
    have h0 : b.countP (fun c => c.isNone) ≠ 0 := by
      intro h
      rw [countP_isNone_zero_iff] at h
      rw [h] at hnf
      cases hnf
    exact ⟨b.countP (fun c => c.isNone) - 1,
      (Nat.succ_pred_eq_of_pos (Nat.pos_of_ne_zero h0)).symm⟩
  rw [hn]
  show minimaxStep ai (minimaxF ai n) b d m = _
  unfold minimaxStep
  rw [hw]
  simp only [hnf, Bool.false_eq_true, if_false]
  have hchild : ∀ q : Player, ∀ i ∈ emptiesList b, ∀ d2 m2,
      minimaxF ai n (jsSet b i (some q)) d2 m2 = minimax ai (jsSet b i (some q)) d2 m2 := by
    intro q i hi d2 m2
    rcases (mem_emptiesList b i).mp hi with ⟨hi9, hie⟩
    have hilen : i < b.length := by omega
    unfold minimax
    have hcount := countP_jsSet_isNone b i q hilen hie
    have : (jsSet b i (some q)).countP (fun c => c.isNone) = n := by omega
    rw [this]
  cases m with
  | true =>
    show idx9.foldl
        (fun best i => if (b.getD i none).isNone = true
          then jmax best (minimaxF ai n (jsSet b i (some ai)) (d + 1) false) else best)
        JNum.ninf
      = (childScores ai b d true).foldl jmax .ninf
    rw [foldl_guard (fun i => (b.getD i none).isNone)
      (fun i => minimaxF ai n (jsSet b i (some ai)) (d + 1) false) jmax idx9 JNum.ninf]
    show ((emptiesList b).map _).foldl jmax .ninf = _
    unfold childScores
    congr 1
    apply List.map_congr_left
    intro i hi
    simpa using hchild ai i hi (d + 1) false
  | false =>
    show idx9.foldl
        (fun best i => if (b.getD i none).isNone = true
          then jmin best (minimaxF ai n (jsSet b i (some ai.other)) (d + 1) true) else best)
        JNum.pinf
      = (childScores ai b d false).foldl jmin .pinf
    rw [foldl_guard (fun i => (b.getD i none).isNone)
      (fun i => minimaxF ai n (jsSet b i (some ai.other)) (d + 1) true) jmin idx9 JNum.pinf]
    show ((emptiesList b).map _).foldl jmin .pinf = _
    unfold childScores
    congr 1
    apply List.map_congr_left
    intro i hi
    simpa using hchild ai.other i hi (d + 1) true

/-
  Structural facts about the search value: finiteness, depth-shift sign
  invariance, and the two players' values being negatives of each other.
-/

theorem Player.other_other (p : Player) : p.other.other = p := by
  cases p <;> rfl

theorem Player.other_ne (p : Player) : p.other ≠ p := by
  cases p <;> simp [Player.other]

theorem Player.eq_other_of_ne {w p : Player} (h : w ≠ p) : w = p.other := by
  cases w <;> cases p <;> simp_all [Player.other]

theorem bool_eq_false_of_ne_true {b : Bool} (h : ¬b = true) : b = false := by
  cases b
  · rfl
  · exact absurd rfl h

theorem childScores_ne_nil (ai : Player) (b : Board) (d : Nat) (m : Bool)
    (hlen : b.length = 9) (hnf : b.all (fun v => v.isSome) = false) :
    childScores ai b d m ≠ [] := by
  unfold childScores
  intro h
  exact emptiesList_ne_nil b hlen hnf (List.map_eq_nil_iff.mp h)

theorem child_facts (b : Board) (hlen : b.length = 9) {i : Nat}
    (hi : i ∈ emptiesList b) (q : Player) :
    (jsSet b i (some q)).length = 9
      ∧ (jsSet b i (some q)).countP (fun c => c.isNone) + 1
          = b.countP (fun c => c.isNone) := by
  rcases (mem_emptiesList b i).mp hi with ⟨h9, he⟩
  have hl : i < b.length := by omega
  exact ⟨by rw [length_jsSet b i _ hl, hlen], countP_jsSet_isNone b i q hl he⟩

theorem minimax_isFin (ai : Player) : ∀ n (b : Board),
    b.countP (fun c => c.isNone) = n → b.length = 9 →
    ∀ (d : Nat) (m : Bool), ∃ z : Int, minimax ai b d m = .fin z := by
  intro n
  induction n using Nat.strong_induction_on with
  | _ n ih =>
    intro b hn hlen d m
    cases hwin : (calculateWinner b).1 with
    | some w =>
      refine ⟨if w = ai then 10 - (d : Int) else (d : Int) - 10, ?_⟩
      rw [minimax_winner ai b d m w hwin]
      by_cases hww : w = ai <;> simp [hww]
    | none =>
      by_cases hf : b.all (fun v => v.isSome) = true
      · exact ⟨0, minimax_full ai b d m hwin hf⟩
      · have hnf := bool_eq_false_of_ne_true hf
        rw [minimax_else ai b d m hlen hwin hnf]
        cases m with
        | true =>
          have hmem := foldl_jmax_mem (childScores_ne_nil ai b d true hlen hnf)
          unfold childScores at hmem
          rcases List.mem_map.mp hmem with ⟨i, hi, hfe⟩
          obtain ⟨hl9, hcnt⟩ := child_facts b hlen hi (if true then ai else ai.other)
          rcases ih ((jsSet b i (some (if true then ai else ai.other))).countP
              (fun c => c.isNone)) (by omega) _ rfl hl9 (d + 1) (!true) with ⟨z, hz⟩
          refine ⟨z, ?_⟩
          show (childScores ai b d true).foldl jmax .ninf = .fin z
          unfold childScores
          rw [← hfe, hz]
        | false =>
          have hmem := foldl_jmin_mem (childScores_ne_nil ai b d false hlen hnf)
          unfold childScores at hmem
          rcases List.mem_map.mp hmem with ⟨i, hi, hfe⟩
          obtain ⟨hl9, hcnt⟩ := child_facts b hlen hi (if false then ai else ai.other)
          rcases ih ((jsSet b i (some (if false then ai else ai.other))).countP
              (fun c => c.isNone)) (by omega) _ rfl hl9 (d + 1) (!false) with ⟨z, hz⟩
          refine ⟨z, ?_⟩
          show (childScores ai b d false).foldl jmin .pinf = .fin z
          unfold childScores
          rw [← hfe, hz]

theorem any_map_congr {l : List Nat} {f1 f2 : Nat → JNum} {g : JNum → Bool}
    (h : ∀ i ∈ l, g (f1 i) = g (f2 i)) :
    (l.map f1).any g = (l.map f2).any g := by
  induction l with
  | nil => rfl
  | cons x xs ih =>
    simp only [List.map_cons, List.any_cons]
    rw [h x (List.mem_cons_self x xs), ih (fun i hi => h i (List.mem_cons_of_mem x hi))]

theorem all_map_congr {l : List Nat} {f1 f2 : Nat → JNum} {g : JNum → Bool}
    (h : ∀ i ∈ l, g (f1 i) = g (f2 i)) :
    (l.map f1).all g = (l.map f2).all g := by
  induction l with
  | nil => rfl
  | cons x xs ih =>
    simp only [List.map_cons, List.all_cons]
    rw [h x (List.mem_cons_self x xs), ih (fun i hi => h i (List.mem_cons_of_mem x hi))]

theorem minimax_signshift (ai : Player) : ∀ n (b : Board),
    b.countP (fun c => c.isNone) = n → b.length = 9 →
    ∀ (d1 d2 : Nat) (m : Bool), d1 + n ≤ 9 → d2 + n ≤ 9 →
      jgtb (minimax ai b d1 m) (.fin 0) = jgtb (minimax ai b d2 m) (.fin 0)
        ∧ jgtb (.fin 0) (minimax ai b d1 m) = jgtb (.fin 0) (minimax ai b d2 m) := by
  intro n
  induction n using Nat.strong_induction_on with
  | _ n ih =>
    intro b hn hlen d1 d2 m h1 h2
    cases hwin : (calculateWinner b).1 with
    | some w =>
      rw [minimax_winner ai b d1 m w hwin, minimax_winner ai b d2 m w hwin]
      by_cases hww : w = ai
      · rw [if_pos hww, if_pos hww]
        constructor
        · simp only [jgtb, decide_eq_decide]
          omega
        · simp only [jgtb, decide_eq_decide]
          omega
      · rw [if_neg hww, if_neg hww]
        constructor
        · simp only [jgtb, decide_eq_decide]
          omega
        · simp only [jgtb, decide_eq_decide]
          omega
    | none =>
      by_cases hf : b.all (fun v => v.isSome) = true
      · rw [minimax_full ai b d1 m hwin hf, minimax_full ai b d2 m hwin hf]
        exact ⟨rfl, rfl⟩
      · have hnf := bool_eq_false_of_ne_true hf
        have hc0 : b.countP (fun c => c.isNone) ≠ 0 :=
          fun h => hf ((countP_isNone_zero_iff b).mp h)
        rw [minimax_else ai b d1 m hlen hwin hnf, minimax_else ai b d2 m hlen hwin hnf]
        have hpair : ∀ (q : Player) (mm : Bool), ∀ i ∈ emptiesList b,
            jgtb (minimax ai (jsSet b i (some q)) (d1 + 1) mm) (.fin 0)
                = jgtb (minimax ai (jsSet b i (some q)) (d2 + 1) mm) (.fin 0)
              ∧ jgtb (.fin 0) (minimax ai (jsSet b i (some q)) (d1 + 1) mm)
                = jgtb (.fin 0) (minimax ai (jsSet b i (some q)) (d2 + 1) mm) := by
          intro q mm i hi
          obtain ⟨hl9, hcnt⟩ := child_facts b hlen hi q
          exact ih ((jsSet b i (some q)).countP (fun c => c.isNone)) (by omega) _ rfl hl9
            (d1 + 1) (d2 + 1) mm (by omega) (by omega)
        cases m with
        | true =>
          constructor
          · show jgtb ((childScores ai b d1 true).foldl jmax .ninf) (.fin 0)
              = jgtb ((childScores ai b d2 true).foldl jmax .ninf) (.fin 0)
            rw [foldl_jmax_gt, foldl_jmax_gt]
            unfold childScores
            simp only [Bool.not_true, reduceIte]
            rw [any_map_congr (fun i hi => (hpair ai false i hi).1)]
          · show jgtb (.fin 0) ((childScores ai b d1 true).foldl jmax .ninf)
              = jgtb (.fin 0) ((childScores ai b d2 true).foldl jmax .ninf)
            rw [foldl_jmax_lt, foldl_jmax_lt]
            unfold childScores
            simp only [Bool.not_true, reduceIte]
            rw [all_map_congr (fun i hi => (hpair ai false i hi).2)]
        | false =>
          constructor
          · show jgtb ((childScores ai b d1 false).foldl jmin .pinf) (.fin 0)
              = jgtb ((childScores ai b d2 false).foldl jmin .pinf) (.fin 0)
            rw [foldl_jmin_gt, foldl_jmin_gt]
            unfold childScores
            simp only [Bool.not_false, Bool.false_eq_true, if_false, reduceIte]
            rw [all_map_congr (fun i hi => (hpair ai.other true i hi).1)]
          · show jgtb (.fin 0) ((childScores ai b d1 false).foldl jmin .pinf)
              = jgtb (.fin 0) ((childScores ai b d2 false).foldl jmin .pinf)
            rw [foldl_jmin_lt, foldl_jmin_lt]
            unfold childScores
            simp only [Bool.not_false, Bool.false_eq_true, if_false, reduceIte]
            rw [any_map_congr (fun i hi => (hpair ai.other true i hi).2)]

theorem jneg_jneg (a : JNum) : jneg (jneg a) = a := by
  cases a <;> simp [jneg]

theorem jneg_jmin (a b : JNum) : jneg (jmin a b) = jmax (jneg a) (jneg b) := by
  cases a <;> cases b <;> simp only [jmin, jmax, jneg] <;> congr 1 <;>
    split <;> split <;> omega

theorem jneg_jmax (a b : JNum) : jneg (jmax a b) = jmin (jneg a) (jneg b) := by
  cases a <;> cases b <;> simp only [jmin, jmax, jneg] <;> congr 1 <;>
    split <;> split <;> omega

theorem foldl_jmax_map_jneg (l : List JNum) : ∀ acc,
    (l.map jneg).foldl jmax (jneg acc) = jneg (l.foldl jmin acc) := by
  induction l with
  | nil => intro acc; rfl
  | cons x xs ih =>
    intro acc
    simp only [List.map_cons, List.foldl_cons]
    rw [← jneg_jmin, ih (jmin acc x)]

theorem foldl_jmin_map_jneg (l : List JNum) : ∀ acc,
    (l.map jneg).foldl jmin (jneg acc) = jneg (l.foldl jmax acc) := by
  induction l with
  | nil => intro acc; rfl
  | cons x xs ih =>
    intro acc
    simp only [List.map_cons, List.foldl_cons]
    rw [← jneg_jmax, ih (jmax acc x)]

theorem minimax_swap (ai : Player) : ∀ n (b : Board),
    b.countP (fun c => c.isNone) = n → b.length = 9 →
    ∀ (d : Nat) (m : Bool),
      minimax ai b d m = jneg (minimax ai.other b d (!m)) := by
  intro n
  induction n using Nat.strong_induction_on with
  | _ n ih =>
    intro b hn hlen d m
    cases hwin : (calculateWinner b).1 with
    | some w =>
      rw [minimax_winner ai b d m w hwin, minimax_winner ai.other b d (!m) w hwin]
      by_cases hww : w = ai
      · have hwo : w ≠ ai.other := by
          rw [hww]
          intro hcon
          exact Player.other_ne ai hcon.symm
        rw [if_pos hww, if_neg hwo]
        simp only [jneg]
        congr 1
        omega
      · have hwo : w = ai.other := Player.eq_other_of_ne hww
        rw [if_neg hww, if_pos hwo]
        simp only [jneg]
        congr 1
        omega
    | none =>
      by_cases hfull : b.all (fun v => v.isSome) = true
      · rw [minimax_full ai b d m hwin hfull, minimax_full ai.other b d (!m) hwin hfull]
        rfl
      · have hnf := bool_eq_false_of_ne_true hfull
        rw [minimax_else ai b d m hlen hwin hnf, minimax_else ai.other b d (!m) hlen hwin hnf]
        have hchild : ∀ q : Player, ∀ i ∈ emptiesList b, ∀ d2 m2,
            minimax ai (jsSet b i (some q)) d2 m2
              = jneg (minimax ai.other (jsSet b i (some q)) d2 (!m2)) := by
          intro q i hi d2 m2
          obtain ⟨hl9, hcnt⟩ := child_facts b hlen hi q
          exact ih ((jsSet b i (some q)).countP (fun c => c.isNone)) (by omega) _ rfl hl9 d2 m2
        cases m with
        | true =>
          show (childScores ai b d true).foldl jmax .ninf
            = jneg ((childScores ai.other b d false).foldl jmin .pinf)
          have hmap : childScores ai b d true = (childScores ai.other b d false).map jneg := by
            unfold childScores
            rw [List.map_map]
            apply List.map_congr_left
            intro i hi
            simp only [Function.comp, Bool.not_true, Bool.not_false, reduceIte,
              Bool.false_eq_true, if_false]
            rw [Player.other_other]
            exact hchild ai i hi (d + 1) false
          rw [hmap]
          exact foldl_jmax_map_jneg (childScores ai.other b d false) .pinf
        | false =>
          show (childScores ai b d false).foldl jmin .pinf
            = jneg ((childScores ai.other b d true).foldl jmax .ninf)
          have hmap : childScores ai b d false = (childScores ai.other b d true).map jneg := by
            unfold childScores
            rw [List.map_map]
            apply List.map_congr_left
            intro i hi
            simp only [Function.comp, Bool.not_true, Bool.not_false, reduceIte,
              Bool.false_eq_true, if_false]
            exact hchild ai.other i hi (d + 1) true
          rw [hmap]
          exact foldl_jmin_map_jneg (childScores ai.other b d true) .ninf

/-
  The move-selection loop: its result is the guarded argmax with
  lowest-index tie-breaking.
-/

theorem jleb_of_jgtb_eq_false {a b : JNum} (h : jgtb a b = false) : jleb a b = true := by
  have hx := jgtb_eq_not_jleb a b
  rw [h] at hx
  cases hle : jleb a b
  · rw [hle] at hx
    simp at hx
  · rfl

theorem fold_argmax (f : Nat → JNum) (g : Nat → Bool) :
    ∀ (l : List Nat), List.Sorted (· < ·) l →
    ∀ (bs : JNum) (mv : Int),
      (l.foldl (argmaxStep f g) (bs, mv) = (bs, mv)
        ∧ ∀ j ∈ l, g j = true → jgtb (f j) bs = false)
      ∨ (∃ m ∈ l, g m = true
          ∧ l.foldl (argmaxStep f g) (bs, mv) = (f m, (m : Int))
          ∧ jgtb (f m) bs = true
          ∧ (∀ j ∈ l, g j = true → jleb (f j) (f m) = true)
          ∧ (∀ j ∈ l, g j = true → j < m → jgtb (f m) (f j) = true)) := by
  intro l
  induction l with
  | nil =>
    intro _ bs mv
    exact Or.inl ⟨rfl, by simp⟩
  | cons x xs ih =>
    intro hs bs mv
    have hs' : List.Sorted (· < ·) xs := (List.sorted_cons.mp hs).2
    have hxlt : ∀ j ∈ xs, x < j := (List.sorted_cons.mp hs).1
    by_cases hgx : g x = true
    · by_cases himp : jgtb (f x) bs = true
      · have hstep : (x :: xs).foldl (argmaxStep f g) (bs, mv)
            = xs.foldl (argmaxStep f g) (f x, (x : Int)) := by
          rw [List.foldl_cons]
          simp [argmaxStep, hgx, himp]
        rcases ih hs' (f x) (x : Int) with ⟨heq, hnone⟩ | ⟨m, hmm, hgm, heq2, hgtm, hub, hstr⟩
        · refine Or.inr ⟨x, List.mem_cons_self x xs, hgx, ?_, himp, ?_, ?_⟩
          · rw [hstep, heq]
          · intro j hj hgj
            rcases List.mem_cons.mp hj with hjx | hjxs
            · rw [hjx]
              exact jleb_refl (f x)
            · exact jleb_of_jgtb_eq_false (hnone j hjxs hgj)
          · intro j hj hgj hjlt
            rcases List.mem_cons.mp hj with hjx | hjxs
            · rw [hjx] at hjlt
              omega
            · have := hxlt j hjxs
              omega
        · refine Or.inr ⟨m, List.mem_cons_of_mem x hmm, hgm, ?_, jgtb_trans hgtm himp, ?_, ?_⟩
          · rw [hstep, heq2]
          · intro j hj hgj
            rcases List.mem_cons.mp hj with hjx | hjxs
            · rw [hjx]
              exact jleb_of_jgtb hgtm
            · exact hub j hjxs hgj
          · intro j hj hgj hjlt
            rcases List.mem_cons.mp hj with hjx | hjxs
            · rw [hjx]
              exact hgtm
            · exact hstr j hjxs hgj hjlt
      · have himpf : jgtb (f x) bs = false := bool_eq_false_of_ne_true himp
        have hstep : (x :: xs).foldl (argmaxStep f g) (bs, mv)
            = xs.foldl (argmaxStep f g) (bs, mv) := by
          rw [List.foldl_cons]
          simp [argmaxStep, hgx, himpf]
        rcases ih hs' bs mv with ⟨heq, hnone⟩ | ⟨m, hmm, hgm, heq2, hgtm, hub, hstr⟩
        · refine Or.inl ⟨by rw [hstep, heq], ?_⟩
          intro j hj hgj
          rcases List.mem_cons.mp hj with hjx | hjxs
          · rw [hjx]
            exact himpf
          · exact hnone j hjxs hgj
        · have hmx : jgtb (f m) (f x) = true :=
            jgtb_of_jgtb_of_jleb hgtm (jleb_of_jgtb_eq_false himpf)
          refine Or.inr ⟨m, List.mem_cons_of_mem x hmm, hgm, ?_, hgtm, ?_, ?_⟩
          · rw [hstep, heq2]
          · intro j hj hgj
            rcases List.mem_cons.mp hj with hjx | hjxs
            · rw [hjx]
              exact jleb_of_jgtb hmx
            · exact hub j hjxs hgj
          · intro j hj hgj hjlt
            rcases List.mem_cons.mp hj with hjx | hjxs
            · rw [hjx]
              exact hmx
            · exact hstr j hjxs hgj hjlt
    · have hgxf : g x = false := bool_eq_false_of_ne_true hgx
      have hstep : (x :: xs).foldl (argmaxStep f g) (bs, mv)
          = xs.foldl (argmaxStep f g) (bs, mv) := by
        rw [List.foldl_cons]
        simp [argmaxStep, hgxf]
      rcases ih hs' bs mv with ⟨heq, hnone⟩ | ⟨m, hmm, hgm, heq2, hgtm, hub, hstr⟩
      · refine Or.inl ⟨by rw [hstep, heq], ?_⟩
        intro j hj hgj
        rcases List.mem_cons.mp hj with hjx | hjxs
        · rw [hjx] at hgj
          rw [hgxf] at hgj
          cases hgj
        · exact hnone j hjxs hgj
      · refine Or.inr ⟨m, List.mem_cons_of_mem x hmm, hgm, ?_, hgtm, ?_, ?_⟩
        · rw [hstep, heq2]
        · intro j hj hgj
          rcases List.mem_cons.mp hj with hjx | hjxs
          · rw [hjx] at hgj
            rw [hgxf] at hgj
            cases hgj
          · exact hub j hjxs hgj
        · intro j hj hgj hjlt
          rcases List.mem_cons.mp hj with hjx | hjxs
          · rw [hjx] at hgj
            rw [hgxf] at hgj
            cases hgj
          · exact hstr j hjxs hgj hjlt

theorem computeAIMove_unfold (squares : Board) (ai : Player) :
    computeAIMove squares ai
      = (if (idx9.foldl (argmaxStep (fun i => minimax ai (jsSet squares i (some ai)) 0 false)
            (fun i => (squares.getD i none).isNone)) (JNum.ninf, (-1 : Int))).2 = -1
         then (match squares.findIdx? (fun v => v.isNone) with
               | some j => (j : Int)
               | none => -1)
         else (idx9.foldl (argmaxStep (fun i => minimax ai (jsSet squares i (some ai)) 0 false)
            (fun i => (squares.getD i none).isNone)) (JNum.ninf, (-1 : Int))).2) := rfl

theorem idx9_sorted : List.Sorted (· < ·) idx9 := by
  decide

theorem computeAIMove_spec (squares : Board) (ai : Player) (hlen : squares.length = 9)
    (hne : ∃ i, i < 9 ∧ (squares.getD i none).isNone = true) :
    ∃ m : Nat, computeAIMove squares ai = Int.ofNat m ∧ m < 9
      ∧ (squares.getD m none).isNone = true
      ∧ (∀ j, j < 9 → (squares.getD j none).isNone = true →
          jleb (minimax ai (jsSet squares j (some ai)) 0 false)
               (minimax ai (jsSet squares m (some ai)) 0 false) = true)
      ∧ (∀ j, j < 9 → (squares.getD j none).isNone = true → j < m →
          jgtb (minimax ai (jsSet squares m (some ai)) 0 false)
               (minimax ai (jsSet squares j (some ai)) 0 false) = true) := by
  rcases fold_argmax (fun i => minimax ai (jsSet squares i (some ai)) 0 false)
      (fun i => (squares.getD i none).isNone) idx9 idx9_sorted JNum.ninf (-1)
    with ⟨heq, hnone⟩ | ⟨m, hm9, hgm, heq, hgt, hub, hstr⟩
  · exfalso
    rcases hne with ⟨i, hi9, hie⟩
    have hfi := hnone i ((mem_idx9 i).mpr hi9) hie
    have hclen : (jsSet squares i (some ai)).length = 9 := by
      rw [length_jsSet squares i _ (by omega), hlen]
    rcases minimax_isFin ai _ (jsSet squares i (some ai)) rfl hclen 0 false with ⟨z, hz⟩
    rw [hz] at hfi
    simp [jgtb] at hfi
  · refine ⟨m, ?_, (mem_idx9 m).mp hm9, hgm, ?_, ?_⟩
    · rw [computeAIMove_unfold, heq]
      have hm1 : ((m : Int)) ≠ -1 := by omega
      rw [if_neg hm1]
      rfl
    · intro j hj9 hje
      exact hub j ((mem_idx9 j).mpr hj9) hje
    · intro j hj9 hje hjm
      exact hstr j ((mem_idx9 j).mpr hj9) hje hjm

theorem getD_isSome_of_all (l : Board) (h : l.all (fun v => v.isSome) = true)
    (i : Nat) (hi : i < l.length) : (l.getD i none).isSome = true := by
  induction l generalizing i with
  | nil => simp at hi
  | cons c tl ih =>
    rw [List.all_cons, Bool.and_eq_true] at h
    cases i with
    | zero => exact h.1
    | succ n => exact ih h.2 n (by simpa using hi)

theorem findIdx?_eq_none_of_all_isSome (l : Board)
    (h : l.all (fun v => v.isSome) = true) :
    ∀ i0 : Nat, List.findIdx? (fun v => v.isNone) l i0 = none := by
  induction l with
  | nil => intro i0; rfl
  | cons c tl ih =>
    rw [List.all_cons, Bool.and_eq_true] at h
    intro i0
    rw [List.findIdx?_cons]
    have hc : Option.isNone c = false := by
      cases c
      · simp at h
      · rfl
    simp [hc, ih h.2]

/-- C10: when the Search Engine is called on a 9-cell board with no
empty cell (outside its precondition), it returns -1 — neither a valid
board index nor an error — rather than failing or falling back to an
empty cell. -/
theorem computeAIMove_full_board (squares : Board) (ai : Player)
    (hlen : squares.length = 9) (hfull : squares.all (fun v => v.isSome) = true) :
    computeAIMove squares ai = -1 := by
  rcases fold_argmax (fun i => minimax ai (jsSet squares i (some ai)) 0 false)
      (fun i => (squares.getD i none).isNone) idx9 idx9_sorted JNum.ninf (-1)
    with ⟨heq, _⟩ | ⟨m, hm9, hgm, _, _, _, _⟩
  · rw [computeAIMove_unfold, heq]
    have hcond : ((JNum.ninf, (-1 : Int)).2 = (-1 : Int)) := rfl
    rw [if_pos hcond, findIdx?_eq_none_of_all_isSome squares hfull 0]
  · exfalso
    have hsome := getD_isSome_of_all squares hfull m
      (by rw [hlen]; exact (mem_idx9 m).mp hm9)
    cases hcell : squares.getD m none with
    | none => rw [hcell] at hsome; simp at hsome
    | some p => rw [hcell] at hgm; simp at hgm

/-- Witness for C10 at a concrete full board. -/
theorem computeAIMove_full_board_witness :
    computeAIMove [some .X, some .O, some .X, some .O, some .X, some .O,
      some .O, some .X, some .O] .X = -1 :=
  computeAIMove_full_board _ .X rfl (by decide)

/-- C2 counterexample: on the board `[X,X,_,O,O,_,_,_,_]` with the
computer as O, the Search Engine does not return index 2. -/
theorem computeAIMove_blockBoard_ne_two :
    computeAIMove [some .X, some .X, none, some .O, some .O, none, none, none, none] .O
      ≠ 2 := by
  decide

/-- C2 amended: on the board `[X,X,_,O,O,_,_,_,_]` with the computer as
O, the Search Engine returns index 5, completing its own row [3,4,5]
for an immediate win (a win now scores 10, strictly above any blocking
line, so blocking at 2 is not selected). -/
theorem computeAIMove_blockBoard_eq_five :
    computeAIMove [some .X, some .X, none, some .O, some .O, none, none, none, none] .O
      = 5 := by
  rfl

/-- C3: on a 9-cell board with at least one empty cell, the Search
Engine examines the legal moves in ascending order and returns the
lowest-index move of strictly greatest minimax score; the returned
index is an empty cell, and the function is deterministic. -/
theorem engine_move_selection_spec (squares : Board) (ai : Player)
    (hlen : squares.length = 9)
    (hne : ∃ i, i < 9 ∧ (squares.getD i none).isNone = true) :
    (∃ m : Nat, computeAIMove squares ai = Int.ofNat m ∧ m < 9
      ∧ (squares.getD m none).isNone = true
      ∧ (∀ j, j < 9 → (squares.getD j none).isNone = true →
          jleb (minimax ai (jsSet squares j (some ai)) 0 false)
               (minimax ai (jsSet squares m (some ai)) 0 false) = true)
      ∧ (∀ j, j < 9 → (squares.getD j none).isNone = true → j < m →
          jgtb (minimax ai (jsSet squares m (some ai)) 0 false)
               (minimax ai (jsSet squares j (some ai)) 0 false) = true))
    ∧ computeAIMove squares ai = computeAIMove squares ai :=
  ⟨computeAIMove_spec squares ai hlen hne, rfl⟩

/-- Witness for C3 at the concrete board `[X,X,_,O,O,_,_,_,_]`. -/
theorem engine_move_selection_spec_witness :
    (∃ m : Nat,
      computeAIMove [some .X, some .X, none, some .O, some .O, none, none, none, none] .O
          = Int.ofNat m
      ∧ m < 9
      ∧ (([some .X, some .X, none, some .O, some .O, none, none, none, none] :
            Board).getD m none).isNone = true
      ∧ (∀ j, j < 9 →
          (([some .X, some .X, none, some .O, some .O, none, none, none, none] :
            Board).getD j none).isNone = true →
          jleb (minimax .O (jsSet [some .X, some .X, none, some .O, some .O, none,
              none, none, none] j (some .O)) 0 false)
            (minimax .O (jsSet [some .X, some .X, none, some .O, some .O, none,
              none, none, none] m (some .O)) 0 false) = true)
      ∧ (∀ j, j < 9 →
          (([some .X, some .X, none, some .O, some .O, none, none, none, none] :
            Board).getD j none).isNone = true → j < m →
          jgtb (minimax .O (jsSet [some .X, some .X, none, some .O, some .O, none,
              none, none, none] m (some .O)) 0 false)
            (minimax .O (jsSet [some .X, some .X, none, some .O, some .O, none,
              none, none, none] j (some .O)) 0 false) = true))
    ∧ computeAIMove [some .X, some .X, none, some .O, some .O, none, none, none, none] .O
        = computeAIMove [some .X, some .X, none, some .O, some .O, none, none, none, none] .O :=
  engine_move_selection_spec
    [some .X, some .X, none, some .O, some .O, none, none, none, none] .O rfl
    ⟨2, by decide⟩

/-- C4: the recursive minimax score satisfies, for every 9-cell board,
depth and flag: a win for the computer scores `10 - depth`, a win for
the human scores `depth - 10`, a full board scores 0, and otherwise the
value is the max (maximizing) or min (minimizing) of the scores of the
boards with the mover's symbol placed on an empty cell, at `depth + 1`
with the flag flipped. -/
theorem minimax_score_spec (ai : Player) (b : Board) (d : Nat) (m : Bool)
    (hlen : b.length = 9) :
    (∀ w, (calculateWinner b).1 = some w → w = ai →
        minimax ai b d m = .fin (10 - (d : Int)))
    ∧ (∀ w, (calculateWinner b).1 = some w → w = ai.other →
        minimax ai b d m = .fin ((d : Int) - 10))
    ∧ ((calculateWinner b).1 = none → b.all (fun v => v.isSome) = true →
        minimax ai b d m = .fin 0)
    ∧ ((calculateWinner b).1 = none → b.all (fun v => v.isSome) = false →
        (m = true → isMaxOf (minimax ai b d true) (childScores ai b d true))
        ∧ (m = false → isMinOf (minimax ai b d false) (childScores ai b d false))) := by
  refine ⟨?_, ?_, ?_, ?_⟩
  · intro w hw hwa
    rw [minimax_winner ai b d m w hw, if_pos hwa]
  · intro w hw hwo
    have hwa : w ≠ ai := by
      rw [hwo]
      exact Player.other_ne ai
    rw [minimax_winner ai b d m w hw, if_neg hwa]
  · intro hw hf
    exact minimax_full ai b d m hw hf
  · intro hw hnf
    constructor
    · intro hm
      have hrec := minimax_else ai b d true hlen hw hnf
      rw [if_pos rfl] at hrec
      constructor
      · rw [hrec]
        exact foldl_jmax_mem (childScores_ne_nil ai b d true hlen hnf)
      · intro x hx
        rw [hrec]
        exact jleb_foldl_jmax_of_mem hx JNum.ninf
    · intro hm
      have hrec := minimax_else ai b d false hlen hw hnf
      rw [if_neg (by simp)] at hrec
      constructor
      · rw [hrec]
        exact foldl_jmin_mem (childScores_ne_nil ai b d false hlen hnf)
      · intro x hx
        rw [hrec]
        exact jleb_foldl_jmin_of_mem hx JNum.pinf

/-- Witness for C4 at a concrete full drawn board. -/
theorem minimax_score_spec_witness :
    (∀ w, (calculateWinner [some .X, some .O, some .X, some .O, some .X, some .O,
        some .O, some .X, some .O]).1 = some w → w = .O →
        minimax .O [some .X, some .O, some .X, some .O, some .X, some .O,
          some .O, some .X, some .O] 0 true = .fin (10 - (0 : Int)))
    ∧ (∀ w, (calculateWinner [some .X, some .O, some .X, some .O, some .X, some .O,
        some .O, some .X, some .O]).1 = some w → w = Player.O.other →
        minimax .O [some .X, some .O, some .X, some .O, some .X, some .O,
          some .O, some .X, some .O] 0 true = .fin ((0 : Int) - 10))
    ∧ ((calculateWinner [some .X, some .O, some .X, some .O, some .X, some .O,
        some .O, some .X, some .O]).1 = none →
        ([some .X, some .O, some .X, some .O, some .X, some .O,
          some .O, some .X, some .O] : Board).all (fun v => v.isSome) = true →
        minimax .O [some .X, some .O, some .X, some .O, some .X, some .O,
          some .O, some .X, some .O] 0 true = .fin 0)
    ∧ ((calculateWinner [some .X, some .O, some .X, some .O, some .X, some .O,
        some .O, some .X, some .O]).1 = none →
        ([some .X, some .O, some .X, some .O, some .X, some .O,
          some .O, some .X, some .O] : Board).all (fun v => v.isSome) = false →
        (true = true → isMaxOf (minimax .O [some .X, some .O, some .X, some .O,
            some .X, some .O, some .O, some .X, some .O] 0 true)
          (childScores .O [some .X, some .O, some .X, some .O, some .X, some .O,
            some .O, some .X, some .O] 0 true))
        ∧ (true = false → isMinOf (minimax .O [some .X, some .O, some .X, some .O,
            some .X, some .O, some .O, some .X, some .O] 0 false)
          (childScores .O [some .X, some .O, some .X, some .O, some .X, some .O,
            some .O, some .X, some .O] 0 false))) :=
  minimax_score_spec .O _ 0 true rfl

/-
  Soundness of the strategy-certificate checker: a checked tree bounds
  the minimax value of the holder from below by 0.
-/

theorem chkStrat_leaf_def (h : Player) (b : Board) (hm : Bool) :
    chkStrat h .leaf b hm = (chkPre h b).getD (!hm) := rfl

theorem chkStrat_entry_def (h : Player) (i : Nat) (sub rest : STree) (b : Board)
    (hm : Bool) :
    chkStrat h (.entry i sub rest) b hm
      = (chkPre h b).getD
          (if hm then false
           else
             decide (i < 9) && (b.getD i none).isNone
               && chkStrat h sub (jsSet b i (some h.other)) true
               && chkStrat h rest b false) := rfl

theorem chkStrat_move_def (h : Player) (j : Nat) (after : STree) (b : Board)
    (hm : Bool) :
    chkStrat h (.move j after) b hm
      = (chkPre h b).getD
          (if hm then
            decide (j < 9) && (b.getD j none).isNone
              && (((calculateWinner (jsSet b j (some h))).1).isSome
                  || (jsSet b j (some h)).all (fun v => v.isSome)
                  || coverage (jsSet b j (some h)) after)
              && chkStrat h after (jsSet b j (some h)) false
           else false) := rfl

theorem chkPre_winner (h : Player) (b : Board) (w : Player)
    (hw : (calculateWinner b).1 = some w) : chkPre h b = some (w == h) := by
  unfold chkPre
  rw [hw]

theorem chkPre_full (h : Player) (b : Board)
    (hw : (calculateWinner b).1 = none) (hf : b.all (fun v => v.isSome) = true) :
    chkPre h b = some true := by
  unfold chkPre
  rw [hw, if_pos hf]

theorem chkPre_open (h : Player) (b : Board)
    (hw : (calculateWinner b).1 = none) (hnf : b.all (fun v => v.isSome) = false) :
    chkPre h b = none := by
  have hf : ¬(b.all (fun v => v.isSome) = true) := by rw [hnf]; simp
  unfold chkPre
  rw [hw, if_neg hf]

theorem chkPre_none_parts (h : Player) (b : Board) (hpre : chkPre h b = none) :
    (calculateWinner b).1 = none ∧ b.all (fun v => v.isSome) = false := by
  unfold chkPre at hpre
  cases hw : (calculateWinner b).1 with
  | some w => rw [hw] at hpre; cases hpre
  | none =>
    rw [hw] at hpre
    by_cases hf : b.all (fun v => v.isSome) = true
    · rw [if_pos hf] at hpre; cases hpre
    · exact ⟨rfl, bool_eq_false_of_ne_true hf⟩

theorem chkStrat_pre_some (h : Player) (t : STree) (b : Board) (hm : Bool) (r : Bool)
    (hpre : chkPre h b = some r) : chkStrat h t b hm = r := by
  cases t with
  | leaf => rw [chkStrat_leaf_def, hpre, Option.getD_some]
  | entry i sub rest => rw [chkStrat_entry_def, hpre, Option.getD_some]
  | move j after => rw [chkStrat_move_def, hpre, Option.getD_some]

theorem jleb_zero_minimax_winner_self (h : Player) (b : Board) (d : Nat) (m : Bool)
    (w : Player) (hw : (calculateWinner b).1 = some w) (hwh : w = h) (hd : d ≤ 10) :
    jleb (.fin 0) (minimax h b d m) = true := by
  rw [minimax_winner h b d m w hw, if_pos hwh]
  simp only [jleb, decide_eq_true_eq]
  omega

theorem chk_terminal_value (h : Player) (b : Board) (d : Nat) (m : Bool)
    (hd : d ≤ 10) (r : Bool) (hpre : chkPre h b = some r) (hrt : r = true) :
    jleb (.fin 0) (minimax h b d m) = true := by
  unfold chkPre at hpre
  cases hw : (calculateWinner b).1 with
  | some w =>
    rw [hw] at hpre
    have hwr : (w == h) = r := by
      simpa using hpre
    rw [hrt] at hwr
    exact jleb_zero_minimax_winner_self h b d m w hw (by simpa using hwr) hd
  | none =>
    rw [hw] at hpre
    by_cases hf : b.all (fun v => v.isSome) = true
    · rw [minimax_full h b d m hw hf]
      exact jleb_refl _
    · rw [if_neg hf] at hpre
      cases hpre

theorem jleb_zero_foldl_jmin {L : List JNum}
    (hall : ∀ x ∈ L, jleb (.fin 0) x = true) :
    jleb (.fin 0) (L.foldl jmin .pinf) = true := by
  apply jleb_of_jgtb_eq_false
  rw [foldl_jmin_lt]
  have h1 : jgtb (JNum.fin 0) JNum.pinf = false := rfl
  rw [h1, Bool.false_or, List.any_eq_false]
  intro x hx
  have hxx := jgtb_eq_not_jleb (JNum.fin 0) x
  rw [hall x hx] at hxx
  simpa using hxx

theorem coverage_mem {b : Board} {t : STree} (hcov : coverage b t = true)
    {i : Nat} (hi9 : i < 9) (hie : (b.getD i none).isNone = true) :
    i ∈ keysOf t := by
  unfold coverage at hcov
  rw [List.all_eq_true] at hcov
  have hcc := hcov i ((mem_idx9 i).mpr hi9)
  rw [hie] at hcc
  simpa using hcc

theorem chkStrat_sound (h : Player) : ∀ (t : STree) (b : Board) (d : Nat),
    b.length = 9 → d + b.countP (fun c => c.isNone) ≤ 9 →
    ((chkStrat h t b true = true → jleb (.fin 0) (minimax h b d true) = true)
     ∧ (chkStrat h t b false = true →
         (calculateWinner b).1 = none → b.all (fun v => v.isSome) = false →
         ∀ i, i ∈ keysOf t → (b.getD i none).isNone = true → i < 9 →
           jleb (.fin 0) (minimax h (jsSet b i (some h.other)) (d + 1) true) = true)) := by
  intro t
  induction t with
  | leaf =>
    intro b d hlen hd
    constructor
    · intro hchk
      cases hpre : chkPre h b with
      | some r =>
        rw [chkStrat_pre_some h _ b true r hpre] at hchk
        exact chk_terminal_value h b d true (by omega) r hpre hchk
      | none =>
        rw [chkStrat_leaf_def, hpre, Option.getD_none] at hchk
        simp at hchk
    · intro hchk hw hnf i hik hie hi9
      simp [keysOf] at hik
  | entry i0 sub rest ihsub ihrest =>
    intro b d hlen hd
    constructor
    · intro hchk
      cases hpre : chkPre h b with
      | some r =>
        rw [chkStrat_pre_some h _ b true r hpre] at hchk
        exact chk_terminal_value h b d true (by omega) r hpre hchk
      | none =>
        rw [chkStrat_entry_def, hpre, Option.getD_none] at hchk
        simp at hchk
    · intro hchk hw hnf i hik hie hi9
      rw [chkStrat_entry_def, chkPre_open h b hw hnf, Option.getD_none,
        if_neg (by simp)] at hchk
      rw [Bool.and_eq_true, Bool.and_eq_true, Bool.and_eq_true] at hchk
      obtain ⟨⟨⟨hi09, hi0e⟩, hsub⟩, hrest⟩ := hchk
      rw [decide_eq_true_eq] at hi09
      have hik2 : i ∈ i0 :: keysOf rest := by
        simpa [keysOf] using hik
      rcases List.mem_cons.mp hik2 with hii0 | hirest
      · subst hii0
        have hmem : i ∈ emptiesList b := (mem_emptiesList b i).mpr ⟨hi9, hie⟩
        obtain ⟨hl9, hcnt⟩ := child_facts b hlen hmem h.other
        exact (ihsub (jsSet b i (some h.other)) (d + 1) hl9 (by omega)).1 hsub
      · exact (ihrest b d hlen hd).2 hrest hw hnf i hirest hie hi9
  | move j0 after ihafter =>
    intro b d hlen hd
    constructor
    · intro hchk
      cases hpre : chkPre h b with
      | some r =>
        rw [chkStrat_pre_some h _ b true r hpre] at hchk
        exact chk_terminal_value h b d true (by omega) r hpre hchk
      | none =>
        obtain ⟨hw, hnf⟩ := chkPre_none_parts h b hpre
        rw [chkStrat_move_def, hpre, Option.getD_none, if_pos rfl] at hchk
        rw [Bool.and_eq_true, Bool.and_eq_true, Bool.and_eq_true] at hchk
        obtain ⟨⟨⟨hj9, hje⟩, hcov3⟩, hafter⟩ := hchk
        rw [decide_eq_true_eq] at hj9
        have hmem : j0 ∈ emptiesList b := (mem_emptiesList b j0).mpr ⟨hj9, hje⟩
        obtain ⟨hl9, hcnt⟩ := child_facts b hlen hmem h
        have hb1 : jleb (.fin 0) (minimax h (jsSet b j0 (some h)) (d + 1) false)
            = true := by
          cases hw1 : (calculateWinner (jsSet b j0 (some h))).1 with
          | some w1 =>
            have hch := hafter
            rw [chkStrat_pre_some h after _ false (w1 == h)
              (chkPre_winner h _ w1 hw1)] at hch
            exact jleb_zero_minimax_winner_self h _ (d + 1) false w1 hw1
              (by simpa using hch) (by omega)
          | none =>
            by_cases hfull1 : (jsSet b j0 (some h)).all (fun v => v.isSome) = true
            · rw [minimax_full h _ (d + 1) false hw1 hfull1]
              exact jleb_refl _
            · have hnf1 := bool_eq_false_of_ne_true hfull1
              have hcov : coverage (jsSet b j0 (some h)) after = true := by
                rw [Bool.or_eq_true, Bool.or_eq_true] at hcov3
                rcases hcov3 with (hc | hc) | hc
                · rw [hw1] at hc
                  simp at hc
                · exact absurd hc hfull1
                · exact hc
              have hrec := minimax_else h (jsSet b j0 (some h)) (d + 1) false hl9 hw1 hnf1
              rw [if_neg (by simp)] at hrec
              rw [hrec]
              apply jleb_zero_foldl_jmin
              intro x hx
              unfold childScores at hx
              rcases List.mem_map.mp hx with ⟨i, hi, hxe⟩
              rcases (mem_emptiesList _ i).mp hi with ⟨hi9, hie⟩
              have hkey : i ∈ keysOf after := coverage_mem hcov hi9 hie
              have hval := (ihafter (jsSet b j0 (some h)) (d + 1) hl9 (by omega)).2
                hafter hw1 hnf1 i hkey hie hi9
              rw [← hxe]
              simpa using hval
        have hrec := minimax_else h b d true hlen hw hnf
        rw [if_pos rfl] at hrec
        rw [hrec]
        have hmemscore : minimax h (jsSet b j0 (some h)) (d + 1) false
            ∈ childScores h b d true := by
          unfold childScores
          exact List.mem_map.mpr ⟨j0, hmem, by simp⟩
        exact jleb_trans hb1 (jleb_foldl_jmax_of_mem hmemscore JNum.ninf)
    · intro hchk hw hnf i hik hie hi9
      simp [keysOf] at hik

theorem chkStrat_sound_opp (h : Player) (t : STree) (b : Board) (d : Nat)
    (hlen : b.length = 9) (hd : d + b.countP (fun c => c.isNone) ≤ 9)
    (hw : (calculateWinner b).1 = none) (hnf : b.all (fun v => v.isSome) = false)
    (hcov : coverage b t = true) (hchk : chkStrat h t b false = true) :
    jleb (.fin 0) (minimax h b d false) = true := by
  have hrec := minimax_else h b d false hlen hw hnf
  rw [if_neg (by simp)] at hrec
  rw [hrec]
  apply jleb_zero_foldl_jmin
  intro x hx
  unfold childScores at hx
  rcases List.mem_map.mp hx with ⟨i, hi, hxe⟩
  rcases (mem_emptiesList _ i).mp hi with ⟨hi9, hie⟩
  have hkey := coverage_mem hcov hi9 hie
  have hval := (chkStrat_sound h t b d hlen hd).2 hchk hw hnf i hkey hie hi9
  rw [← hxe]
  simpa using hval

/-- The O-side certificate is accepted by the checker (evaluation). -/
theorem certO_checks : chkStrat .O certO emptyBoard false = true := by
  rfl

/-- The X-side certificate is accepted by the checker (evaluation). -/
theorem certX_checks : chkStrat .X certX emptyBoard true = true := by
  rfl

theorem coverage_certO : coverage emptyBoard certO = true := by
  rfl

/-- The game value of the empty board, from O's point of view, with X
to move, is exactly 0: perfect play draws. -/
theorem value_empty_O : minimax .O emptyBoard 0 false = .fin 0 := by
  have h1 : jleb (.fin 0) (minimax .O emptyBoard 0 false) = true :=
    chkStrat_sound_opp .O certO emptyBoard 0 rfl (by decide) rfl rfl
      coverage_certO certO_checks
  have h2 : jleb (.fin 0) (minimax .X emptyBoard 0 true) = true :=
    (chkStrat_sound .X certX emptyBoard 0 rfl (by decide)).1 certX_checks
  have hswap : minimax .X emptyBoard 0 true = jneg (minimax .O emptyBoard 0 false) :=
    minimax_swap .X (emptyBoard.countP fun c => c.isNone) emptyBoard rfl rfl 0 true
  rcases minimax_isFin .O (emptyBoard.countP fun c => c.isNone) emptyBoard rfl rfl 0 false
    with ⟨z, hz⟩
  rw [hz]
  rw [hz] at h1
  rw [hswap, hz] at h2
  simp only [jneg] at h2
  simp only [jleb, decide_eq_true_eq] at h1 h2
  have hz0 : z = 0 := by omega
  rw [hz0]

theorem value_empty_X : minimax .X emptyBoard 0 true = .fin 0 := by
  have hswap : minimax .X emptyBoard 0 true = jneg (minimax .O emptyBoard 0 false) :=
    minimax_swap .X (emptyBoard.countP fun c => c.isNone) emptyBoard rfl rfl 0 true
  rw [hswap, value_empty_O]
  rfl

/-
  Playout invariants: a non-negative value is preserved by any opponent
  move and by the engine's move; the exact value 0 is preserved along
  engine-vs-engine play.
-/

theorem countP_le_nine (b : Board) (hlen : b.length = 9) :
    b.countP (fun c => c.isNone) ≤ 9 := by
  rw [← hlen]
  exact List.countP_le_length _

theorem opp_step_ge0 (h : Player) (b : Board) (hlen : b.length = 9)
    (hw : (calculateWinner b).1 = none) (hnf : b.all (fun v => v.isSome) = false)
    (hval : jleb (.fin 0) (minimax h b 0 false) = true)
    {i : Nat} (hi : i ∈ emptiesList b) :
    jleb (.fin 0) (minimax h (jsSet b i (some h.other)) 0 true) = true := by
  have hrec := minimax_else h b 0 false hlen hw hnf
  rw [if_neg (by simp)] at hrec
  rw [hrec] at hval
  have hne : jgtb (.fin 0) ((childScores h b 0 false).foldl jmin .pinf) = false := by
    have hx := jgtb_eq_not_jleb (JNum.fin 0) ((childScores h b 0 false).foldl jmin .pinf)
    rw [hval] at hx
    simpa using hx
  rw [foldl_jmin_lt] at hne
  simp at hne
  have hmem : minimax h (jsSet b i (some h.other)) 1 true ∈ childScores h b 0 false := by
    unfold childScores
    exact List.mem_map.mpr ⟨i, hi, by simp⟩
  have h1 : jgtb (.fin 0) (minimax h (jsSet b i (some h.other)) 1 true) = false :=
    hne.2 _ hmem
  have h2 : jleb (.fin 0) (minimax h (jsSet b i (some h.other)) 1 true) = true :=
    jleb_of_jgtb_eq_false h1
  obtain ⟨hl9, hcnt⟩ := child_facts b hlen hi h.other
  have hc9 := countP_le_nine b hlen
  have hshift := minimax_signshift h ((jsSet b i (some h.other)).countP fun c => c.isNone)
    _ rfl hl9 1 0 true (by omega) (by omega)
  apply jleb_of_jgtb_eq_false
  rw [← hshift.2]
  exact h1

theorem engine_step_ge0 (h : Player) (b : Board) (hlen : b.length = 9)
    (hw : (calculateWinner b).1 = none) (hnf : b.all (fun v => v.isSome) = false)
    (hval : jleb (.fin 0) (minimax h b 0 true) = true) :
    ∃ m : Nat, computeAIMove b h = Int.ofNat m ∧ m < 9
      ∧ (b.getD m none).isNone = true
      ∧ jleb (.fin 0) (minimax h (jsSet b m (some h)) 0 false) = true := by
  have hrec := minimax_else h b 0 true hlen hw hnf
  rw [if_pos rfl] at hrec
  rw [hrec] at hval
  have hne : jgtb (.fin 0) ((childScores h b 0 true).foldl jmax .ninf) = false := by
    have hx := jgtb_eq_not_jleb (JNum.fin 0) ((childScores h b 0 true).foldl jmax .ninf)
    rw [hval] at hx
    simpa using hx
  rw [foldl_jmax_lt] at hne
  simp at hne
  obtain ⟨x, hxmem, hxf⟩ := hne (by rfl)
  have hxmem2 := hxmem
  unfold childScores at hxmem2
  rcases List.mem_map.mp hxmem2 with ⟨i, hi, hxe⟩
  rcases (mem_emptiesList b i).mp hi with ⟨hi9, hie⟩
  have hx1 : jgtb (.fin 0) (minimax h (jsSet b i (some h)) 1 false) = false := by
    have : jgtb (.fin 0) x = false := by simpa using hxf
    rw [← hxe] at this
    simpa using this
  obtain ⟨hl9, hcnt⟩ := child_facts b hlen hi h
  have hc9 := countP_le_nine b hlen
  have hshift := minimax_signshift h ((jsSet b i (some h)).countP fun c => c.isNone)
    _ rfl hl9 1 0 false (by omega) (by omega)
  have hx0 : jleb (.fin 0) (minimax h (jsSet b i (some h)) 0 false) = true := by
    apply jleb_of_jgtb_eq_false
    rw [← hshift.2]
    exact hx1
  obtain ⟨m, hcm, hm9, hme, hub, _⟩ := computeAIMove_spec b h hlen ⟨i, hi9, hie⟩
  exact ⟨m, hcm, hm9, hme, jleb_trans hx0 (hub i hi9 hie)⟩

theorem engine_step_zero (p : Player) (b : Board) (hlen : b.length = 9)
    (hw : (calculateWinner b).1 = none) (hnf : b.all (fun v => v.isSome) = false)
    (hval : minimax p b 0 true = .fin 0) :
    ∃ m : Nat, computeAIMove b p = Int.ofNat m ∧ m < 9
      ∧ (b.getD m none).isNone = true
      ∧ minimax p (jsSet b m (some p)) 0 false = .fin 0 := by
  have hrec := minimax_else p b 0 true hlen hw hnf
  rw [if_pos rfl] at hrec
  have hfold : (childScores p b 0 true).foldl jmax .ninf = .fin 0 := by
    rw [← hrec, hval]
  have hc9 := countP_le_nine b hlen
  have hshift : ∀ i ∈ emptiesList b, ∀ q : Player,
      jgtb (minimax p (jsSet b i (some q)) 1 false) (.fin 0)
          = jgtb (minimax p (jsSet b i (some q)) 0 false) (.fin 0)
        ∧ jgtb (.fin 0) (minimax p (jsSet b i (some q)) 1 false)
          = jgtb (.fin 0) (minimax p (jsSet b i (some q)) 0 false) := by
    intro i hi q
    obtain ⟨hl9, hcnt⟩ := child_facts b hlen hi q
    exact minimax_signshift p ((jsSet b i (some q)).countP fun c => c.isNone)
      _ rfl hl9 1 0 false (by omega) (by omega)
  have hgt : jgtb ((childScores p b 0 true).foldl jmax .ninf) (.fin 0) = false := by
    rw [hfold]
    rfl
  rw [foldl_jmax_gt] at hgt
  simp at hgt
  have hmem0 := foldl_jmax_mem (childScores_ne_nil p b 0 true hlen hnf)
  rw [hfold] at hmem0
  have hmem0b := hmem0
  unfold childScores at hmem0b
  rcases List.mem_map.mp hmem0b with ⟨i0, hi0, hi0e⟩
  rcases (mem_emptiesList b i0).mp hi0 with ⟨hi09, hi0E⟩
  have hz1 : minimax p (jsSet b i0 (some p)) 1 false = .fin 0 := by
    simpa using hi0e
  have h0ge : jleb (.fin 0) (minimax p (jsSet b i0 (some p)) 0 false) = true := by
    apply jleb_of_jgtb_eq_false
    rw [← (hshift i0 hi0 p).2, hz1]
    rfl
  obtain ⟨m, hcm, hm9, hme, hub, _⟩ := computeAIMove_spec b p hlen ⟨i0, hi09, hi0E⟩
  have hmmem : m ∈ emptiesList b := (mem_emptiesList b m).mpr ⟨hm9, hme⟩
  have hmge : jleb (.fin 0) (minimax p (jsSet b m (some p)) 0 false) = true :=
    jleb_trans h0ge (hub i0 hi09 hi0E)
  have hm1mem : minimax p (jsSet b m (some p)) 1 false ∈ childScores p b 0 true := by
    unfold childScores
    exact List.mem_map.mpr ⟨m, hmmem, by simp⟩
  have hmle1 : jgtb (minimax p (jsSet b m (some p)) 1 false) (.fin 0) = false :=
    hgt.2 _ hm1mem
  have hmle : jgtb (minimax p (jsSet b m (some p)) 0 false) (.fin 0) = false := by
    rw [← (hshift m hmmem p).1]
    exact hmle1
  obtain ⟨hl9m, hcntm⟩ := child_facts b hlen hmmem p
  rcases minimax_isFin p ((jsSet b m (some p)).countP fun c => c.isNone)
      (jsSet b m (some p)) rfl hl9m 0 false with ⟨z, hzm⟩
  rw [hzm] at hmge hmle
  simp only [jleb, jgtb, decide_eq_true_eq, decide_eq_false_iff_not] at hmge hmle
  have hz0 : z = 0 := by omega
  rw [hz0] at hzm
  exact ⟨m, hcm, hm9, hme, hzm⟩

theorem side_swap_zero (p : Player) (b : Board) (hlen : b.length = 9)
    (hv : minimax p b 0 false = .fin 0) : minimax p.other b 0 true = .fin 0 := by
  have hswap : minimax p b 0 false = jneg (minimax p.other b 0 true) :=
    minimax_swap p (b.countP fun c => c.isNone) b rfl hlen 0 false
  rw [hv] at hswap
  have hh := congrArg jneg hswap
  rw [jneg_jneg] at hh
  have : jneg (.fin 0) = JNum.fin 0 := by
    simp [jneg]
  rw [this] at hh
  exact hh.symm

theorem winner_ne_of_ge0 (h : Player) (b : Board) (hTurn : Bool)
    (hval : jleb (.fin 0) (minimax h b 0 hTurn) = true) :
    (calculateWinner b).1 ≠ some h.other := by
  intro hcon
  rw [minimax_winner h b 0 hTurn h.other hcon, if_neg (Player.other_ne h)] at hval
  simp [jleb] at hval

theorem playVs_safe (h : Player) (strat : Board → Nat) : ∀ (fuel : Nat) (b : Board)
    (hTurn : Bool), b.length = 9 →
    jleb (.fin 0) (minimax h b 0 hTurn) = true →
    (calculateWinner (playVs h strat fuel b hTurn)).1 ≠ some h.other := by
  intro fuel
  induction fuel with
  | zero =>
    intro b hTurn hlen hval
    exact winner_ne_of_ge0 h b hTurn hval
  | succ n ihn =>
    intro b hTurn hlen hval
    by_cases hterm : (((calculateWinner b).1).isSome || isDraw b) = true
    · have hstep : playVs h strat (n + 1) b hTurn = b := by
        show (if (((calculateWinner b).1).isSome || isDraw b) = true then b else _) = b
        rw [if_pos hterm]
      rw [hstep]
      exact winner_ne_of_ge0 h b hTurn hval
    · have hterm' := bool_eq_false_of_ne_true hterm
      rw [Bool.or_eq_false_iff] at hterm'
      have hw : (calculateWinner b).1 = none := by
        cases hww : (calculateWinner b).1 with
        | none => rfl
        | some w =>
          rw [hww] at hterm'
          simp at hterm'
      have hnf : b.all (fun v => v.isSome) = false := by
        have hdr := hterm'.2
        unfold isDraw at hdr
        rw [hw] at hdr
        simpa using hdr
      have hterm2 : (((calculateWinner b).1).isSome || isDraw b) = false := by
        rw [Bool.or_eq_false_iff]
        exact hterm'
      cases hTurn with
      | true =>
        obtain ⟨m, hcm, hm9, hme, hval2⟩ := engine_step_ge0 h b hlen hw hnf hval
        have hmmem : m ∈ emptiesList b := (mem_emptiesList b m).mpr ⟨hm9, hme⟩
        obtain ⟨hl9, _⟩ := child_facts b hlen hmmem h
        have hstep : playVs h strat (n + 1) b true
            = playVs h strat n (jsSet b m (some h)) false := by
          show (if (((calculateWinner b).1).isSome || isDraw b) = true then b
            else playVs h strat n (jsSet b (computeAIMove b h).toNat (some h)) false) = _
          rw [if_neg (by rw [hterm2]; simp), hcm]
          simp
        rw [hstep]
        exact ihn (jsSet b m (some h)) false hl9 hval2
      | false =>
        by_cases hleg : (decide (strat b < 9) && (b.getD (strat b) none).isNone) = true
        · rw [Bool.and_eq_true, decide_eq_true_eq] at hleg
          have himem : strat b ∈ emptiesList b :=
            (mem_emptiesList b (strat b)).mpr ⟨hleg.1, hleg.2⟩
          obtain ⟨hl9, _⟩ := child_facts b hlen himem h.other
          have hval2 := opp_step_ge0 h b hlen hw hnf hval himem
          have hstep : playVs h strat (n + 1) b false
              = playVs h strat n (jsSet b (strat b) (some h.other)) true := by
            show (if (((calculateWinner b).1).isSome || isDraw b) = true then b
              else if (decide (strat b < 9) && (b.getD (strat b) none).isNone) = true
                then playVs h strat n (jsSet b (strat b) (some h.other)) true else b) = _
            rw [if_neg (by rw [hterm2]; simp),
              if_pos (by rw [Bool.and_eq_true, decide_eq_true_eq]; exact hleg)]
          rw [hstep]
          exact ihn (jsSet b (strat b) (some h.other)) true hl9 hval2
        · have hlegf := bool_eq_false_of_ne_true hleg
          have hstep : playVs h strat (n + 1) b false = b := by
            show (if (((calculateWinner b).1).isSome || isDraw b) = true then b
              else if (decide (strat b < 9) && (b.getD (strat b) none).isNone) = true
                then playVs h strat n (jsSet b (strat b) (some h.other)) true else b) = b
            rw [if_neg (by rw [hterm2]; simp), if_neg (by rw [hlegf]; simp)]
          rw [hstep]
          intro hcon
          rw [hw] at hcon
          cases hcon

theorem selfPlay_draw_inv : ∀ (fuel : Nat) (b : Board) (p : Player),
    b.length = 9 → b.countP (fun c => c.isNone) = fuel →
    minimax p b 0 true = .fin 0 → isDraw (selfPlay fuel b p) = true := by
  intro fuel
  induction fuel with
  | zero =>
    intro b p hlen hcnt hval
    have hfull : b.all (fun v => v.isSome) = true := (countP_isNone_zero_iff b).mp hcnt
    have hw : (calculateWinner b).1 = none := by
      cases hww : (calculateWinner b).1 with
      | none => rfl
      | some w =>
        exfalso
        have hv2 := minimax_winner p b 0 true w hww
        rw [hval] at hv2
        by_cases hwp : w = p
        · rw [if_pos hwp] at hv2
          simp at hv2
        · rw [if_neg hwp] at hv2
          simp at hv2
    show isDraw b = true
    unfold isDraw
    rw [hfull, hw]
    rfl
  | succ n ih =>
    intro b p hlen hcnt hval
    have hnf : b.all (fun v => v.isSome) = false := by
      apply bool_eq_false_of_ne_true
      intro hT
      rw [(countP_isNone_zero_iff b).mpr hT] at hcnt
      cases hcnt
    have hw : (calculateWinner b).1 = none := by
      cases hww : (calculateWinner b).1 with
      | none => rfl
      | some w =>
        exfalso
        have hv2 := minimax_winner p b 0 true w hww
        rw [hval] at hv2
        by_cases hwp : w = p
        · rw [if_pos hwp] at hv2
          simp at hv2
        · rw [if_neg hwp] at hv2
          simp at hv2
    obtain ⟨m, hcm, hm9, hme, hval2⟩ := engine_step_zero p b hlen hw hnf hval
    have hmmem : m ∈ emptiesList b := (mem_emptiesList b m).mpr ⟨hm9, hme⟩
    obtain ⟨hl9, hcntm⟩ := child_facts b hlen hmmem p
    have hnext : minimax p.other (jsSet b m (some p)) 0 true = .fin 0 :=
      side_swap_zero p (jsSet b m (some p)) hl9 hval2
    have hterm2 : (((calculateWinner b).1).isSome || isDraw b) = false := by
      rw [hw]
      unfold isDraw
      rw [hnf]
      rfl
    have hstep : selfPlay (n + 1) b p = selfPlay n (jsSet b m (some p)) p.other := by
      show (if (((calculateWinner b).1).isSome || isDraw b) = true then b
        else selfPlay n (jsSet b (computeAIMove b p).toNat (some p)) p.other) = _
      rw [if_neg (by rw [hterm2]; simp), hcm]
      simp
    rw [hstep]
    exact ih (jsSet b m (some p)) p.other hl9 (by omega) hnext

/-- C1: with the Search Engine choosing every one of the computer's
moves from the empty board, the final position is never a win for the
opponent, whatever strategy the opponent follows — both with the engine
as O (X, the opponent, moving first) and with the engine as X (moving
first); and when both sides' moves are chosen by the engine, alternating
symbols from X, the game ends in a draw. -/
theorem engine_never_loses_and_selfplay_draws :
    (∀ strat : Board → Nat,
      (calculateWinner (playVs .O strat 9 emptyBoard false)).1 ≠ some Player.X
      ∧ (calculateWinner (playVs .X strat 9 emptyBoard true)).1 ≠ some Player.O)
    ∧ isDraw (selfPlay 9 emptyBoard .X) = true := by
  constructor
  · intro strat
    constructor
    · have hval : jleb (.fin 0) (minimax .O emptyBoard 0 false) = true := by
        rw [value_empty_O]
        rfl
      exact playVs_safe .O strat 9 emptyBoard false rfl hval
    · have hval : jleb (.fin 0) (minimax .X emptyBoard 0 true) = true := by
        rw [value_empty_X]
        rfl
      exact playVs_safe .X strat 9 emptyBoard true rfl hval
  · exact selfPlay_draw_inv 9 emptyBoard .X rfl rfl value_empty_X

/-
  The winner query: first qualifying line in the fixed scan order.
-/

theorem scanLines_cons (b : Board) (x y z : Nat) (rest : List (Nat × Nat × Nat)) :
    scanLines b ((x, y, z) :: rest)
      = match b.getD x none with
        | some p =>
          if (b.getD y none == some p && b.getD z none == some p) = true
            then (some p, some (x, y, z)) else scanLines b rest
        | none => scanLines b rest := rfl

theorem scanLines_eq_find (b : Board) : ∀ L : List (Nat × Nat × Nat),
    scanLines b L
      = match L.find? (fun l => lineQualifies b l) with
        | some l => (b.getD l.1 none, some l)
        | none => (none, none) := by
  intro L
  induction L with
  | nil => rfl
  | cons hd rest ih =>
    obtain ⟨x, y, z⟩ := hd
    by_cases hq : lineQualifies b (x, y, z) = true
    · rw [List.find?_cons_of_pos _ hq]
      unfold lineQualifies at hq
      cases hga : b.getD x none with
      | none => rw [hga] at hq; cases hq
      | some p =>
        rw [hga] at hq
        have hq2 : (b.getD y none == some p && b.getD z none == some p) = true := hq
        rw [scanLines_cons, hga]
        show (if (b.getD y none == some p && b.getD z none == some p) = true
          then (some p, some (x, y, z)) else scanLines b rest) = _
        rw [if_pos hq2]
        show (some p, some (x, y, z)) = ((b.getD x none), some (x, y, z))
        rw [hga]
    · have hqf := bool_eq_false_of_ne_true hq
      rw [List.find?_cons_of_neg _ hq, scanLines_cons]
      cases hga : b.getD x none with
      | none =>
        show scanLines b rest = _
        exact ih
      | some p =>
        unfold lineQualifies at hqf
        rw [hga] at hqf
        have hqf2 : (b.getD y none == some p && b.getD z none == some p) = false := hqf
        show (if (b.getD y none == some p && b.getD z none == some p) = true
          then (some p, some (x, y, z)) else scanLines b rest) = _
        rw [if_neg (by rw [hqf2]; simp)]
        exact ih

/-- C5: for every board, `calculateWinner` scans the 8 fixed lines in
order (3 rows top-to-bottom, 3 columns left-to-right, the two
diagonals) and returns the first line whose three cells are non-empty
and equal together with its player, or (none, none) when no line
qualifies; any returned (player, line) pair names one of the 8 fixed
lines, all three of whose cells the player occupies. -/
theorem calculateWinner_spec (b : Board) :
    (calculateWinner b
      = match winningLines.find? (fun l => lineQualifies b l) with
        | some l => (b.getD l.1 none, some l)
        | none => (none, none))
    ∧ (∀ p x y z, calculateWinner b = (some p, some (x, y, z)) →
        (x, y, z) ∈ winningLines
        ∧ b.getD x none = some p ∧ b.getD y none = some p ∧ b.getD z none = some p) := by
  constructor
  · exact scanLines_eq_find b winningLines
  · intro p x y z heq
    rw [calculateWinner] at heq
    rw [scanLines_eq_find b winningLines] at heq
    cases hf : winningLines.find? (fun l => lineQualifies b l) with
    | none =>
      rw [hf] at heq
      cases heq
    | some l =>
      rw [hf] at heq
      obtain ⟨lx, ly, lz⟩ := l
      have hcell : b.getD lx none = some p := congrArg Prod.fst heq
      have hline : (lx, ly, lz) = (x, y, z) := by
        have hsnd := congrArg Prod.snd heq
        simpa using hsnd
      have hmem := List.mem_of_find?_eq_some hf
      have hqual := List.find?_some hf
      unfold lineQualifies at hqual
      rw [hcell] at hqual
      rw [Bool.and_eq_true, beq_iff_eq, beq_iff_eq] at hqual
      injection hline with h1 h23
      injection h23 with h2 h3
      subst h1
      subst h2
      subst h3
      exact ⟨hmem, hcell, hqual.1, hqual.2⟩

/-
  Controller transitions: case analysis of a click, the game-over
  effect, restart and mode change.
-/

theorem gameOverEffect_winner_eq (t : AppState) (w : Player)
    (hw : (calculateWinner t.squares).1 = some w) :
    gameOverEffect t = { t with status := .win, score := bumpWinner w t.score } := by
  unfold gameOverEffect
  rw [hw]

theorem gameOverEffect_draw_eq (t : AppState)
    (hw : (calculateWinner t.squares).1 = none) (hd : isDraw t.squares = true) :
    gameOverEffect t
      = { t with status := .draw, score := { t.score with D := t.score.D + 1 } } := by
  unfold gameOverEffect
  rw [hw]
  show (if isDraw t.squares = true
    then ({ t with status := .draw, score := { t.score with D := t.score.D + 1 } } : AppState)
    else { t with status := .ongoing }) = _
  rw [if_pos hd]

theorem gameOverEffect_ongoing_eq (t : AppState)
    (hw : (calculateWinner t.squares).1 = none) (hd : isDraw t.squares = false) :
    gameOverEffect t = { t with status := .ongoing } := by
  unfold gameOverEffect
  rw [hw]
  show (if isDraw t.squares = true
    then ({ t with status := .draw, score := { t.score with D := t.score.D + 1 } } : AppState)
    else { t with status := .ongoing }) = _
  rw [if_neg (by rw [hd]; simp)]

theorem gameOverEffect_squares (t : AppState) :
    (gameOverEffect t).squares = t.squares := by
  cases hw : (calculateWinner t.squares).1 with
  | some w => rw [gameOverEffect_winner_eq t w hw]
  | none =>
    cases hd : isDraw t.squares with
    | true => rw [gameOverEffect_draw_eq t hw hd]
    | false => rw [gameOverEffect_ongoing_eq t hw hd]

theorem gameOverEffect_xIsNext (t : AppState) :
    (gameOverEffect t).xIsNext = t.xIsNext := by
  cases hw : (calculateWinner t.squares).1 with
  | some w => rw [gameOverEffect_winner_eq t w hw]
  | none =>
    cases hd : isDraw t.squares with
    | true => rw [gameOverEffect_draw_eq t hw hd]
    | false => rw [gameOverEffect_ongoing_eq t hw hd]

theorem jsSet_ne_self (b : Board) (i : Nat) (p : Player)
    (he : (b.getD i none).isNone = true) : jsSet b i (some p) ≠ b := by
  by_cases hi : i < b.length
  · intro hcon
    have h1 := getD_jsSet_self b i (some p) hi
    rw [hcon] at h1
    rw [h1] at he
    simp at he
  · intro hcon
    have h1 := congrArg List.length hcon
    unfold jsSet at h1
    rw [if_neg hi] at h1
    simp only [List.length_append, List.length_replicate, List.length_singleton] at h1
    omega

theorem clickStep_cases (s : AppState) (i : Nat) (isAI : Bool) :
    clickStep s i isAI = s
    ∨ ((s.squares.getD i none).isNone = true ∧ (calculateWinner s.squares).1 = none
        ∧ s.status ≠ .draw
        ∧ clickStep s i isAI = gameOverEffect { s with
            squares := jsSet s.squares i (some (if s.xIsNext then .X else .O)),
            xIsNext := !s.xIsNext }) := by
  unfold clickStep handleSquareClick
  by_cases hC1 : ((s.squares.getD i none).isSome
      || ((calculateWinner s.squares).1).isSome || (s.status == Status.draw)) = true
  · left
    rw [if_pos hC1]
    try simp
  · by_cases hC2 : (s.mode == Mode.ai && !s.xIsNext && !isAI) = true
    · left
      rw [if_neg hC1, if_pos hC2]
      try simp
    · right
      have h3 := bool_eq_false_of_ne_true hC1
      rw [Bool.or_eq_false_iff] at h3
      obtain ⟨h4, hst⟩ := h3
      rw [Bool.or_eq_false_iff] at h4
      obtain ⟨hocc, hwin⟩ := h4
      have he : (s.squares.getD i none).isNone = true := by
        cases hc : s.squares.getD i none with
        | none => rfl
        | some q => rw [hc] at hocc; simp at hocc
      have hw : (calculateWinner s.squares).1 = none := by
        cases hc : (calculateWinner s.squares).1 with
        | none => rfl
        | some q => rw [hc] at hwin; simp at hwin
      refine ⟨he, hw, ?_, ?_⟩
      · intro hd
        rw [hd] at hst
        simp at hst
      · rw [if_neg hC1, if_neg hC2]
        have hne : jsSet s.squares i (some (if s.xIsNext then Player.X else Player.O))
            ≠ s.squares := jsSet_ne_self s.squares i _ he
        rw [if_neg (by simpa using hne)]

/-- C6 counterexample: an out-of-range index (9) on a fresh board is not
a silent no-op — the click handler does not guard it, so the stored
array is extended and the turn flips. -/
theorem clickStep_out_of_range_changes_state :
    clickStep (initialState ⟨0, 0, 0⟩) 9 false ≠ initialState ⟨0, 0, 0⟩ := by
  decide

/-- The raw click handler is the identity under any of the four guard
conditions. -/
theorem handleSquareClick_noop (s : AppState) (i : Nat) (isAI : Bool)
    (hcase : ((calculateWinner s.squares).1).isSome = true ∨ s.status = .draw
      ∨ (s.squares.getD i none).isSome = true
      ∨ (s.mode = .ai ∧ s.xIsNext = false ∧ isAI = false)) :
    handleSquareClick s i isAI = s := by
  unfold handleSquareClick
  by_cases hC1 : ((s.squares.getD i none).isSome
      || ((calculateWinner s.squares).1).isSome || (s.status == Status.draw)) = true
  · rw [if_pos hC1]
  · rcases hcase with hw | hd | hocc | ⟨hm, hx, hai⟩
    · exact absurd (by rw [hw]; simp) hC1
    · exact absurd (by rw [hd]; simp) hC1
    · exact absurd (by rw [hocc]; simp) hC1
    · rw [if_neg hC1, if_pos (by rw [hm, hx, hai]; rfl)]

/-- C6 amended: applying a move is a silent no-op, leaving the whole
state unchanged, whenever the board already has a winner, the status is
draw, the target cell is occupied, or the move is a manual (non-engine)
O move in HumanVsComputer mode.  An out-of-range index on a live board
is not guarded (see the counterexample): JS reads `squares[i]` as
undefined, which is falsy, and the write extends the array. -/
theorem clickStep_noop (s : AppState) (i : Nat) (isAI : Bool)
    (hcase : ((calculateWinner s.squares).1).isSome = true ∨ s.status = .draw
      ∨ (s.squares.getD i none).isSome = true
      ∨ (s.mode = .ai ∧ s.xIsNext = false ∧ isAI = false)) :
    clickStep s i isAI = s := by
  unfold clickStep
  rw [handleSquareClick_noop s i isAI hcase]
  simp

/-- Witness for C6's amended no-op at a concrete occupied cell. -/
theorem clickStep_noop_witness :
    clickStep
      ⟨.pvp, [some .X, none, none, none, none, none, none, none, none],
        false, .ongoing, ⟨0, 0, 0⟩⟩ 0 false
      = ⟨.pvp, [some .X, none, none, none, none, none, none, none, none],
        false, .ongoing, ⟨0, 0, 0⟩⟩ :=
  clickStep_noop _ 0 false (Or.inr (Or.inr (Or.inl (by decide))))

theorem statusOf_winner (b : Board) (w : Player)
    (hw : (calculateWinner b).1 = some w) : statusOf b = .win := by
  unfold statusOf
  rw [hw]

theorem statusOf_none (b : Board) (hw : (calculateWinner b).1 = none) :
    statusOf b = if isDraw b then .draw else .ongoing := by
  unfold statusOf
  rw [hw]

theorem statusOf_draw (b : Board) (hw : (calculateWinner b).1 = none)
    (hd : isDraw b = true) : statusOf b = .draw := by
  rw [statusOf_none b hw, hd]
  simp

theorem statusOf_ongoing (b : Board) (hw : (calculateWinner b).1 = none)
    (hd : isDraw b = false) : statusOf b = .ongoing := by
  rw [statusOf_none b hw, hd]
  simp

/-- C7: score tally.  From any status-consistent state: if the state is
already terminal (win or draw) a click changes nothing at all, so the
increment happens at most once per game, at the first terminal
observation; from an ongoing state, when the transition makes the state
terminal, exactly the counter matching the outcome (X win, O win, or
draw) increases by exactly 1 while the other two counters are
unchanged, and when the result is not terminal no counter changes. -/
theorem score_tally_spec (s : AppState) (i : Nat) (isAI : Bool)
    (hcons : s.status = statusOf s.squares) :
    (s.status ≠ .ongoing → clickStep s i isAI = s)
    ∧ (s.status = .ongoing →
        (∀ w, (calculateWinner (clickStep s i isAI).squares).1 = some w →
            (clickStep s i isAI).status = .win
            ∧ (clickStep s i isAI).score.X
                = s.score.X + (if w = .X then 1 else 0)
            ∧ (clickStep s i isAI).score.O
                = s.score.O + (if w = .O then 1 else 0)
            ∧ (clickStep s i isAI).score.D = s.score.D)
        ∧ ((calculateWinner (clickStep s i isAI).squares).1 = none →
            isDraw (clickStep s i isAI).squares = true →
            (clickStep s i isAI).status = .draw
            ∧ (clickStep s i isAI).score.X = s.score.X
            ∧ (clickStep s i isAI).score.O = s.score.O
            ∧ (clickStep s i isAI).score.D = s.score.D + 1)
        ∧ ((calculateWinner (clickStep s i isAI).squares).1 = none →
            isDraw (clickStep s i isAI).squares = false →
            (clickStep s i isAI).score = s.score)) := by
  constructor
  · intro hne
    cases hw : (calculateWinner s.squares).1 with
    | some w => exact clickStep_noop s i isAI (Or.inl (by rw [hw]; rfl))
    | none =>
      cases hd : isDraw s.squares with
      | true =>
        exact clickStep_noop s i isAI (Or.inr (Or.inl
          (by rw [hcons, statusOf_draw s.squares hw hd])))
      | false =>
        exact absurd (by rw [hcons, statusOf_ongoing s.squares hw hd]) hne
  · intro hong
    have hso : statusOf s.squares = .ongoing := by rw [← hcons]; exact hong
    rcases clickStep_cases s i isAI with hnoop | ⟨hocc, hwnone, hnd, heq⟩
    · refine ⟨?_, ?_, ?_⟩
      · intro w hw
        rw [hnoop] at hw
        rw [statusOf_winner s.squares w hw] at hso
        exact absurd hso (by simp)
      · intro hw hd
        rw [hnoop] at hw hd
        rw [statusOf_draw s.squares hw hd] at hso
        exact absurd hso (by simp)
      · intro _ _
        rw [hnoop]
    · refine ⟨?_, ?_, ?_⟩
      · intro w hw
        rw [heq, gameOverEffect_squares] at hw
        rw [heq, gameOverEffect_winner_eq _ w hw]
        cases w <;> simp [bumpWinner]
      · intro hw hd
        rw [heq, gameOverEffect_squares] at hw hd
        rw [heq, gameOverEffect_draw_eq _ hw hd]
        simp
      · intro hw hd
        rw [heq, gameOverEffect_squares] at hw hd
        rw [heq, gameOverEffect_ongoing_eq _ hw hd]

/-- Witness for C7 at a concrete near-terminal state: X completes the
top row and exactly the X counter is incremented. -/
theorem score_tally_spec_witness :
    tallyState.status = statusOf tallyState.squares
    ∧ ((tallyState.status ≠ .ongoing → clickStep tallyState 2 false = tallyState)
      ∧ (tallyState.status = .ongoing →
          (∀ w, (calculateWinner (clickStep tallyState 2 false).squares).1 = some w →
              (clickStep tallyState 2 false).status = .win
              ∧ (clickStep tallyState 2 false).score.X
                  = tallyState.score.X + (if w = .X then 1 else 0)
              ∧ (clickStep tallyState 2 false).score.O
                  = tallyState.score.O + (if w = .O then 1 else 0)
              ∧ (clickStep tallyState 2 false).score.D = tallyState.score.D)
          ∧ ((calculateWinner (clickStep tallyState 2 false).squares).1 = none →
              isDraw (clickStep tallyState 2 false).squares = true →
              (clickStep tallyState 2 false).status = .draw
              ∧ (clickStep tallyState 2 false).score.X = tallyState.score.X
              ∧ (clickStep tallyState 2 false).score.O = tallyState.score.O
              ∧ (clickStep tallyState 2 false).score.D = tallyState.score.D + 1)
          ∧ ((calculateWinner (clickStep tallyState 2 false).squares).1 = none →
              isDraw (clickStep tallyState 2 false).squares = false →
              (clickStep tallyState 2 false).score = tallyState.score))) :=
  ⟨by decide, score_tally_spec tallyState 2 false (by decide)⟩

theorem restartStep_eq (s : AppState) (hcons : s.status = statusOf s.squares) :
    restartStep s
      = { s with squares := List.replicate 9 none, xIsNext := true,
                 status := .ongoing } := by
  unfold restartStep restartState
  by_cases hsq : s.squares = List.replicate 9 (none : Cell)
  · rw [if_pos (by rw [hsq]; exact beq_self_eq_true (List.replicate 9 none))]
    have hst : s.status = Status.ongoing := by rw [hcons, hsq]; decide
    rw [hst]
  · rw [if_neg (by simp only [beq_iff_eq]; intro hcon; exact hsq hcon.symm)]
    rw [gameOverEffect_ongoing_eq _
      (by exact (by decide : (calculateWinner (List.replicate 9 none)).1 = none))
      (by exact (by decide : isDraw (List.replicate 9 none) = false))]

/-- C8: from any status-consistent state, restart resets the board to
all-empty, makes X the active player and the status ongoing, and leaves
every score counter (and the mode) unchanged; changing the mode performs
exactly this restart on the state with the new mode installed. -/
theorem restart_and_mode_spec (s : AppState) (m : Mode)
    (hcons : s.status = statusOf s.squares) :
    restartStep s
      = { s with squares := List.replicate 9 none, xIsNext := true,
                 status := .ongoing }
    ∧ modeChangeStep s m
      = { s with mode := m, squares := List.replicate 9 none, xIsNext := true,
                 status := .ongoing } := by
  refine ⟨restartStep_eq s hcons, ?_⟩
  unfold modeChangeStep
  rw [restartStep_eq { s with mode := m } (by exact hcons)]

/-- Witness for C8 at a concrete won state in HumanVsComputer mode:
restart clears the board and status but keeps the tally; switching to
HumanVsHuman does the same and installs the new mode. -/
theorem restart_and_mode_spec_witness :
    ((⟨.ai, [some .X, some .X, some .X, some .O, some .O, none, none, none, none],
        false, .win, ⟨1, 0, 0⟩⟩ : AppState).status
      = statusOf [some .X, some .X, some .X, some .O, some .O, none, none, none,
        none])
    ∧ (restartStep ⟨.ai, [some .X, some .X, some .X, some .O, some .O, none, none,
          none, none], false, .win, ⟨1, 0, 0⟩⟩
        = ⟨.ai, List.replicate 9 none, true, .ongoing, ⟨1, 0, 0⟩⟩
      ∧ modeChangeStep ⟨.ai, [some .X, some .X, some .X, some .O, some .O, none,
          none, none, none], false, .win, ⟨1, 0, 0⟩⟩ .pvp
        = ⟨.pvp, List.replicate 9 none, true, .ongoing, ⟨1, 0, 0⟩⟩) :=
  ⟨by decide, restart_and_mode_spec _ .pvp (by decide)⟩

theorem countP_replicate_none (f : Cell → Bool) (hfn : f none = false) (n : Nat) :
    (List.replicate n (none : Cell)).countP f = 0 := by
  induction n with
  | zero => rfl
  | succ k ih => simp [List.replicate_succ, List.countP_cons, hfn, ih]

theorem countP_set_of_empty (f : Cell → Bool) (hfn : f none = false)
    (l : Board) (i : Nat) (v : Cell)
    (h : i < l.length) (he : (l.getD i none).isNone = true) :
    (l.set i v).countP f = l.countP f + (if f v then 1 else 0) := by
  induction l generalizing i with
  | nil => simp at h
  | cons c tl ih =>
    cases i with
    | zero =>
      have hc : c = none := by
        cases c
        · rfl
        · simp [List.getD] at he
      subst hc
      simp only [List.set]
      rw [List.countP_cons, List.countP_cons, hfn]
      simp only [Bool.false_eq_true, if_false]
      omega
    | succ j =>
      simp only [List.set]
      rw [List.countP_cons, List.countP_cons]
      have hj : j < tl.length := by simp at h; omega
      have hej : (tl.getD j none).isNone = true := by
        simp [List.getD] at he ⊢
        exact he
      rw [ih j hj hej]
      omega

theorem countP_jsSet_of_empty (f : Cell → Bool) (hfn : f none = false)
    (l : Board) (i : Nat) (v : Cell) (he : (l.getD i none).isNone = true) :
    (jsSet l i v).countP f = l.countP f + (if f v then 1 else 0) := by
  by_cases h : i < l.length
  · rw [jsSet_eq_set l i v h]
    exact countP_set_of_empty f hfn l i v h he
  · unfold jsSet
    rw [if_neg h]
    rw [List.countP_append, List.countP_append,
        countP_replicate_none f hfn, List.countP_cons, List.countP_nil]
    omega

theorem countOf_jsSet_self (b : Board) (i : Nat) (p : Player)
    (he : (b.getD i none).isNone = true) :
    countOf p (jsSet b i (some p)) = countOf p b + 1 := by
  unfold countOf
  rw [countP_jsSet_of_empty (fun c => c == some p) (by rfl) b i (some p) he]
  simp

theorem countOf_jsSet_other (b : Board) (i : Nat) (p q : Player) (hne : q ≠ p)
    (he : (b.getD i none).isNone = true) :
    countOf q (jsSet b i (some p)) = countOf q b := by
  unfold countOf
  rw [countP_jsSet_of_empty (fun c => c == some q) (by rfl) b i (some p) he]
  have hv : ((some p == some q) : Bool) = false := by
    cases p <;> cases q <;> first | rfl | exact absurd rfl hne
  rw [hv]
  simp

theorem restartStep_squares (s : AppState) :
    (restartStep s).squares = List.replicate 9 none := by
  unfold restartStep restartState
  dsimp only
  split
  · rfl
  · rw [gameOverEffect_squares]

theorem restartStep_xIsNext (s : AppState) :
    (restartStep s).xIsNext = true := by
  unfold restartStep restartState
  dsimp only
  split
  · rfl
  · rw [gameOverEffect_xIsNext]

theorem clickStep_count_inv (s : AppState) (i : Nat) (isAI : Bool)
    (ih : (s.xIsNext = true → countOf .X s.squares = countOf .O s.squares)
      ∧ (s.xIsNext = false → countOf .X s.squares = countOf .O s.squares + 1)) :
    ((clickStep s i isAI).xIsNext = true →
        countOf .X (clickStep s i isAI).squares
          = countOf .O (clickStep s i isAI).squares)
    ∧ ((clickStep s i isAI).xIsNext = false →
        countOf .X (clickStep s i isAI).squares
          = countOf .O (clickStep s i isAI).squares + 1) := by
  rcases clickStep_cases s i isAI with hnoop | ⟨he, hw, hd, heq⟩
  · rw [hnoop]
    exact ih
  · rw [heq, gameOverEffect_squares, gameOverEffect_xIsNext]
    cases hx : s.xIsNext with
    | true =>
      refine ⟨fun hcon => Bool.noConfusion hcon, fun _ => ?_⟩
      show countOf .X (jsSet s.squares i (some Player.X))
        = countOf .O (jsSet s.squares i (some Player.X)) + 1
      rw [countOf_jsSet_self s.squares i .X he,
          countOf_jsSet_other s.squares i .X .O (by decide) he,
          ih.1 hx]
    | false =>
      refine ⟨fun _ => ?_, fun hcon => Bool.noConfusion hcon⟩
      show countOf .X (jsSet s.squares i (some Player.O))
        = countOf .O (jsSet s.squares i (some Player.O))
      rw [countOf_jsSet_other s.squares i .O .X (by decide) he,
          countOf_jsSet_self s.squares i .O he,
          ih.2 hx]

theorem reaches_count_inv (s : AppState) (h : Reaches s) :
    (s.xIsNext = true → countOf .X s.squares = countOf .O s.squares)
    ∧ (s.xIsNext = false → countOf .X s.squares = countOf .O s.squares + 1) := by
  induction h with
  | init s0 => exact ⟨fun _ => rfl, fun hcon => Bool.noConfusion hcon⟩
  | user s i hi hr ih => exact clickStep_count_inv s i false ih
  | aiMove s m hr hmode hw hd hx hm ih => exact clickStep_count_inv s m true ih
  | restart s hr ih =>
    rw [restartStep_squares, restartStep_xIsNext]
    exact ⟨fun _ => rfl, fun hcon => Bool.noConfusion hcon⟩
  | reset s hr ih => exact ih
  | mode s m hr ih =>
    unfold modeChangeStep
    rw [restartStep_squares, restartStep_xIsNext]
    exact ⟨fun _ => rfl, fun hcon => Bool.noConfusion hcon⟩

/-- C9: every state reachable from the initial load through the public
operations (user clicks, the engine-driven computer move, restart, score
reset, mode change) has a board with either as many X's as O's or
exactly one more X than O; in particular it never has more than one more
X than O nor more O's than X's. -/
theorem board_count_invariant (s : AppState) (h : Reaches s) :
    countOf .X s.squares = countOf .O s.squares
    ∨ countOf .X s.squares = countOf .O s.squares + 1 := by
  rcases reaches_count_inv s h with ⟨h1, h2⟩
  cases hx : s.xIsNext with
  | true => exact Or.inl (h1 hx)
  | false => exact Or.inr (h2 hx)

/-- Witness for C9 at the state reached by one user click on cell 0 of a
fresh board. -/
theorem board_count_invariant_witness :
    Reaches (clickStep (initialState ⟨0, 0, 0⟩) 0 false)
    ∧ (countOf .X (clickStep (initialState ⟨0, 0, 0⟩) 0 false).squares
        = countOf .O (clickStep (initialState ⟨0, 0, 0⟩) 0 false).squares
      ∨ countOf .X (clickStep (initialState ⟨0, 0, 0⟩) 0 false).squares
        = countOf .O (clickStep (initialState ⟨0, 0, 0⟩) 0 false).squares + 1) :=
  ⟨Reaches.user _ 0 (by decide) (Reaches.init ⟨0, 0, 0⟩),
   board_count_invariant _ (Reaches.user _ 0 (by decide) (Reaches.init ⟨0, 0, 0⟩))⟩
